import Mathlib

/-!
# Immix collector and inflated-header table: a shallow embedding

Sources embedded here:

* `machine/memory/immix_collector.cpp` : `ImmixGC` and `ImmixGC::ObjectDescriber`
* `machine/memory/inflated_headers.cpp` : `InflatedHeaders`

Raw memory is a total map from addresses to object headers (`addr.as<Object>()`
is a reinterpreting cast); the only access the embedding treats as undefined
behaviour is one through the null address.  Functions that may dereference
return `Except Failure`.  Classes whose definitions are not part of the two
source files are either parameters of the embedded function or are modelled
from the specification, and say so in their doc comment.
-/

namespace rubinius
namespace memory

/-! ## Data model -/

/-- A machine address (`Address` / `Object*`). -/
abbrev Address := Nat

/-- The null address, `Address::null()`. -/
def null : Address := 0

/-- The ways an embedded function can fail to return normally. -/
inductive Failure where
  /-- a read or write through the null address (undefined behaviour in C++) -/
  | null_dereference
  /-- an intentional abort through `rubinius::bug` -/
  | fatal (msg : String)
  /-- the fuel of a loop model ran out (the loop is still running) -/
  | out_of_fuel
  deriving DecidableEq, Repr

/-- Modelled from the spec: the generation/zone tag of a managed object
("young vs. mature/region-resident"); the enumeration lives in the object
header declarations, which are not among the sources. -/
inductive gc_zone where
  | YoungObjectZone
  | MatureObjectZone
  deriving DecidableEq, Repr

/-- Modelled from the spec: the primary header of a managed object (data model,
"Managed Object"): a mark relative to the mark generation, a forwarding slot
that is meaningful only once the forwarded flag is set, a zone tag, an
in-region flag and a size.  The header class is not among the sources. -/
structure Object where
  /-- the generation under which the object was last marked -/
  Marked : Nat
  /-- whether the forwarding slot is valid -/
  Forwarded : Bool
  /-- the forwarding slot -/
  forward_ : Address
  zone : gc_zone
  /-- the in-region flag -/
  InImmix : Bool
  /-- what `size_in_bytes(vm)` reports -/
  size_in_bytes : Nat
  deriving DecidableEq, Repr

/-- Modelled from the spec: `marked_p(which)`, "marked under the current mark
generation". -/
def Object.marked_p (o : Object) (which : Nat) : Bool := o.Marked == which

/-- Modelled from the spec: `mark(memory, which)`, "sets the mark bit". -/
def Object.mark (o : Object) (which : Nat) : Object := { o with Marked := which }

/-- Modelled from the spec: `in_immix_p()`, the in-region flag. -/
def Object.in_immix_p (o : Object) : Bool := o.InImmix

/-- Modelled from the spec: `set_in_immix()`. -/
def Object.set_in_immix (o : Object) : Object := { o with InImmix := true }

/-- Modelled from the spec: `set_zone(zone)`. -/
def Object.set_zone (o : Object) (z : gc_zone) : Object := { o with zone := z }

/-- Modelled from the spec: `young_object_p()`. -/
def Object.young_object_p (o : Object) : Bool := o.zone == gc_zone.YoungObjectZone

/-- Modelled from the spec: `forwarded_p()`. -/
def Object.forwarded_p (o : Object) : Bool := o.Forwarded

/-- Modelled from the spec: `forward()`, the content of the forwarding slot. -/
def Object.forward (o : Object) : Address := o.forward_

/-- Modelled from the spec: `set_forward(fwd)`, which makes the header
`Forwarded(fwd)`. -/
def Object.set_forward (o : Object) (fwd : Address) : Object :=
  { o with Forwarded := true, forward_ := fwd }

/-- Raw memory seen as object headers. -/
abbrev Heap := Address → Object

/-- A read through a pointer: undefined through the null address. -/
def load (h : Heap) (a : Address) : Except Failure Object :=
  if a = null then .error .null_dereference else .ok (h a)

/-- A write through a pointer: undefined through the null address. -/
def store (h : Heap) (a : Address) (o : Object) : Except Failure Heap :=
  if a = null then .error .null_dereference else .ok (Function.update h a o)

/-- The explicit worklist of addresses pending a trace scan; `push_back`
appends at the end. -/
abbrev MarkStack := List Address

/-- The memory manager `memory_` as far as the two source files use it.
`ext` carries the state of every collaborator reached through it whose class
is not among the sources (mark engine, block allocator, thread roots, weak
references, finalizer, remembered set). -/
structure Memory (ε : Type) where
  heap : Heap
  /-- the current mark generation, `memory_->mark()` -/
  mark : Nat
  /-- the metrics counter `memory_metrics()->immix_chunks` -/
  immix_chunks : Nat
  /-- Modelled from the spec: the reasons handed to the deferred scheduling
  hook `schedule_full_collection`, oldest first. -/
  scheduled : List String
  ext : ε

/-- Modelled from the spec: `schedule_full_collection(reason)`, "deferred, not
synchronous": the request is recorded. -/
def Memory.schedule_full_collection {ε : Type} (m : Memory ε) (reason : String) :
    Memory ε :=
  { m with scheduled := m.scheduled ++ [reason] }

/-- Modelled from the spec: one block of region memory as the sweep reads it,
"tracks live object byte count, count of free holes"; `holes()`, `objects()`
and `object_bytes()` are these fields. -/
structure Block where
  holes : Nat
  objects : Nat
  object_bytes : Nat
  deriving DecidableEq, Repr

/-- The occupancy `(double)bytes / (double)total_bytes`, kept as the pair of
operands of the division. -/
structure Occupancy where
  bytes : Nat
  total_bytes : Nat
  deriving DecidableEq, Repr

namespace diagnostics

/-- Modelled from the spec: the diagnostics snapshot `diagnostics::Immix`, "a
plain counters record (chunk count, hole count, live object count, live/total
bytes, occupancy ratio, cumulative collection count)". -/
structure Immix where
  chunks : Nat
  holes : Nat
  objects : Nat
  bytes : Nat
  total_bytes : Nat
  percentage : Occupancy
  collections : Nat
  deriving DecidableEq, Repr

/-- Modelled from the spec: the counters of the inflated-header table,
`diagnostics::InflatedHeader`. -/
structure InflatedHeader where
  objects : Nat
  bytes : Nat
  collections : Nat
  deriving DecidableEq, Repr

end diagnostics

/-- The operations and constants the two source files call but do not define,
taken as parameters.  Each acts on the memory manager's state, in which `ext`
holds whatever state of its own the collaborator has. -/
structure Collaborators (ε : Type) where
  /-- the tag test `REFERENCE_P` / `reference_p()` on a pointer-sized word -/
  REFERENCE_P : Nat → Bool
  /-- `gc_.mark_address(Address(obj), allocator_)` of the mark-region engine -/
  gc_mark_address : Memory ε → Address → Address × Memory ε
  /-- `gc_.process_mark_stack(allocator_, exit)` -/
  process_mark_stack : Memory ε → Bool × Memory ε
  /-- `gc_.copy_marks()` -/
  copy_marks : Memory ε → Memory ε
  /-- `gc_.sweep_blocks()` -/
  sweep_blocks : Memory ε → Memory ε
  /-- `gc_.block_allocator().chunks()`, each chunk as the list of its blocks -/
  chunks : Memory ε → List (List Block)
  /-- the region allocator's `allocate(bytes, collect_now)`; the flag goes in
  and comes out because it is passed by reference -/
  allocate : Memory ε → Nat → Bool → Address × Bool × Memory ε
  /-- `allocator_.restart(occupancy, free_bytes)` -/
  restart : Memory ε → Occupancy → Int → Memory ε
  /-- `GarbageCollector::scan(thread, false)` -/
  scan : Memory ε → Nat → Memory ε
  /-- `GarbageCollector::scan_object(obj)` -/
  scan_object : Memory ε → Address → Memory ε
  /-- `GarbageCollector::clean_weakrefs()` -/
  clean_weakrefs : Memory ε → Memory ε
  /-- `GarbageCollector::clean_locked_objects(thread, false)` -/
  clean_locked_objects : Memory ε → Nat → Memory ε
  /-- `Memory::remember_object(obj)` -/
  remember_object : Memory ε → Address → Memory ε
  /-- `Memory::swap_marked_set()` -/
  swap_marked_set : Memory ε → List Address × Memory ε
  /-- `Memory::unremember_objects(mark)` -/
  unremember_objects : Memory ε → Nat → Memory ε
  /-- whether `Memory::finalizer()` is non-null -/
  finalizer : Memory ε → Bool
  /-- `FinalizerThread::gc_scan(this, memory_)` -/
  gc_scan : Memory ε → Memory ε
  /-- `initialize_full_state(vm, other, age)` on the header at `this` -/
  initialize_full_state : Object → Object → Nat → Object
  /-- `init_header(zone, InvalidType)` on the header at `this` -/
  init_header : Object → gc_zone → Object
  /-- the header that `memcpy(dst, src, bytes)` leaves at `dst` when `bytes` is
  not zero, from the header at `dst`, the header at `src` and `bytes`; how many
  header fields `bytes` bytes cover depends on the object layout -/
  copy_bytes : Object → Object → Nat → Object
  cMaxObjectSize : Nat
  cBlockSize : Nat
  /-- `shared().config.diagnostics_memory_enabled` -/
  diagnostics_memory_enabled : Memory ε → Bool
  /-- `diagnostics::Immix::update()` -/
  update : diagnostics.Immix → diagnostics.Immix
  /-- `shared().report_diagnostics(diagnostic())` -/
  report_diagnostics : Memory ε → diagnostics.Immix → Memory ε

/-! ## `ImmixGC::ObjectDescriber` -/

/-- The members of `ImmixGC` that the source file reads and writes directly. -/
structure ImmixGC where
  chunks_left_ : Int
  chunks_before_collection_ : Int
  diagnostic_ : diagnostics.Immix
  deriving DecidableEq, Repr

namespace ImmixGC

/-- Modelled from the spec: `dec_chunks_left()`, "decrements a chunks remaining
before collection counter"; it yields the decremented value. -/
def dec_chunks_left (gc : ImmixGC) : Int × ImmixGC :=
  (gc.chunks_left_ - 1, { gc with chunks_left_ := gc.chunks_left_ - 1 })

/-- Modelled from the spec: `reset_chunks_left()`, "resets to a configured
budget". -/
def reset_chunks_left (gc : ImmixGC) : ImmixGC :=
  { gc with chunks_left_ := gc.chunks_before_collection_ }

/-- The constructor `ImmixGC::ImmixGC(om)`: the member initialisers, then
`reset_chunks_left()`.  `new diagnostics::Immix()` is a zeroed snapshot. -/
def new : ImmixGC :=
  reset_chunks_left
    { chunks_left_ := 0, chunks_before_collection_ := 10,
      diagnostic_ := ⟨0, 0, 0, 0, 0, ⟨0, 0⟩, 0⟩ }

end ImmixGC

namespace ObjectDescriber

/-- `ImmixGC::ObjectDescriber::added_chunk(count)`; `memory_` is `none` when the
describer's memory manager pointer is null. -/
def added_chunk {ε : Type} (memory_ : Option (Memory ε)) (gc_ : ImmixGC) (_count : Int) :
    Option (Memory ε) × ImmixGC :=
  match memory_ with
  | none => (none, gc_)
  | some m =>
    let m1 := { m with immix_chunks := m.immix_chunks + 1 }
    match gc_.dec_chunks_left with
    | (left, gc1) =>
      if left ≤ 0 then (some m1, gc1.reset_chunks_left) else (some m1, gc1)

/-- `ImmixGC::ObjectDescriber::set_forwarding_pointer(from, to)`. -/
def set_forwarding_pointer (h : Heap) (src dst : Address) : Except Failure Heap :=
  match load h src with
  | .error e => .error e
  | .ok obj => .ok (Function.update h src (obj.set_forward dst))

/-- `ImmixGC::ObjectDescriber::copy(original, alloc)`. -/
def copy {ε : Type} (rt : Collaborators ε) (memory_ : Memory ε) (original : Address) :
    Except Failure (Address × Memory ε) :=
  match load memory_.heap original with
  | .error e => .error e
  | .ok orig =>
    match rt.allocate memory_ orig.size_in_bytes false with
    | (copy_addr, collect_flag, m1) =>
      let m2 := if collect_flag then m1.schedule_full_collection "Immix region copy object"
                else m1
      -- copy->initialize_full_state(memory_->vm(), orig, 0)
      match store m2.heap copy_addr
          (rt.initialize_full_state (m2.heap copy_addr) (m2.heap original) 0) with
      | .error e => .error e
      | .ok h3 =>
        let h4 := Function.update h3 copy_addr
          ((h3 copy_addr).set_zone gc_zone.MatureObjectZone)
        let h5 := Function.update h4 copy_addr (h4 copy_addr).set_in_immix
        .ok (copy_addr, { m2 with heap := h5 })

/-- `ImmixGC::ObjectDescriber::mark_address(addr, ms, push)`. -/
def mark_address {ε : Type} (memory_ : Memory ε) (addr : Address) (ms : MarkStack)
    (push : Bool) : Except Failure (Bool × Memory ε × MarkStack) :=
  match load memory_.heap addr with
  | .error e => .error e
  | .ok obj =>
    if obj.marked_p memory_.mark then .ok (false, memory_, ms)
    else
      let obj1 := obj.mark memory_.mark
      let memory1 := { memory_ with heap := Function.update memory_.heap addr obj1 }
      let ms1 := if push then ms ++ [addr] else ms
      .ok (obj1.in_immix_p, memory1, ms1)

/-- `ImmixGC::ObjectDescriber::update_pointer(addr)`. -/
def update_pointer {ε : Type} (rt : Collaborators ε) (memory_ : Memory ε)
    (addr : Address) : Address × Memory ε :=
  if addr = null then (null, memory_)
  else
    let obj := memory_.heap addr
    if obj.young_object_p then
      if obj.forwarded_p then (obj.forward, memory_)
      else (null, memory_)
    else (addr, rt.remember_object memory_ addr)

/-- `ImmixGC::ObjectDescriber::size(addr)`; the conversion of the size to the
`int` it returns is not modelled. -/
def size {ε : Type} (memory_ : Memory ε) (addr : Address) : Except Failure Nat :=
  match load memory_.heap addr with
  | .error e => .error e
  | .ok obj => .ok obj.size_in_bytes

end ObjectDescriber

/-! ## `ImmixGC`: allocation and promotion -/

namespace ImmixGC

/-- `ImmixGC::allocate(bytes, collect_now)`. -/
def allocate {ε : Type} (rt : Collaborators ε) (memory_ : Memory ε) (bytes : Nat)
    (collect_now : Bool) : Address × Bool × Memory ε :=
  if bytes > rt.cMaxObjectSize then (null, collect_now, memory_)
  else
    match rt.allocate memory_ bytes collect_now with
    | (obj, collect_now1, m1) =>
      if obj ≠ null then
        let h1 := Function.update m1.heap obj
          (rt.init_header (m1.heap obj) gc_zone.MatureObjectZone)
        let h2 := Function.update h1 obj (h1 obj).set_in_immix
        (obj, collect_now1, { m1 with heap := h2 })
      else (obj, collect_now1, m1)

/-- `memcpy(dst, src, bytes)` on object headers: nothing is read or written
when `bytes` is zero; otherwise the source is read and the destination written,
and what the destination then holds is `copy_bytes`. -/
def memcpy {ε : Type} (rt : Collaborators ε) (h : Heap) (dst src : Address) (bytes : Nat) :
    Except Failure Heap :=
  if bytes = 0 then .ok h
  else
    match load h src with
    | .error e => .error e
    | .ok s => store h dst (rt.copy_bytes (h dst) s bytes)

/-- `ImmixGC::move_object(orig, bytes, collect_now)`. -/
def move_object {ε : Type} (rt : Collaborators ε) (memory_ : Memory ε) (orig : Address)
    (bytes : Nat) (collect_now : Bool) : Except Failure (Address × Bool × Memory ε) :=
  if bytes > rt.cMaxObjectSize then .ok (null, collect_now, memory_)
  else
    match rt.allocate memory_ bytes collect_now with
    | (obj, collect_now1, m1) =>
      match memcpy rt m1.heap obj orig bytes with
      | .error e => .error e
      | .ok h2 =>
        -- obj->set_zone(MatureObjectZone); obj->set_in_immix()
        match load h2 obj with
        | .error e => .error e
        | .ok o =>
          let h3 := Function.update h2 obj (o.set_zone gc_zone.MatureObjectZone)
          let h4 := Function.update h3 obj (h3 obj).set_in_immix
          -- orig->set_forward(obj)
          match load h4 orig with
          | .error e => .error e
          | .ok og => .ok (obj, collect_now1,
              { m1 with heap := (Function.update h4 orig (og.set_forward obj)) })

end ImmixGC

/-! ## `ImmixGC::sweep` -/

namespace ImmixGC

/-- The body of `while(Block* block = iter.next())` in `ImmixGC::sweep`, for the
blocks an `AllBlockIterator` yields: every block of every chunk in order. -/
def sweep_count (cBlockSize : Nat) : List Block → diagnostics.Immix → diagnostics.Immix
  | [], d => d
  | block :: rest, d =>
    sweep_count cBlockSize rest
      { d with holes := d.holes + block.holes,
               objects := d.objects + block.objects,
               bytes := d.bytes + block.object_bytes,
               total_bytes := d.total_bytes + cBlockSize }

/-- `ImmixGC::sweep()`.  The stopwatch around the diagnostics block measures
real time and is left out. -/
def sweep {ε : Type} (rt : Collaborators ε) (self : ImmixGC) (memory_ : Memory ε) :
    ImmixGC × Memory ε :=
  let m1 := rt.copy_marks memory_
  let m2 := rt.sweep_blocks m1
  let chunks := rt.chunks m2
  let d1 := { self.diagnostic_ with chunks := chunks.length }
  let d2 := sweep_count rt.cBlockSize chunks.flatten d1
  let d3 := { d2 with percentage := ⟨d2.bytes, d2.total_bytes⟩ }
  let d4 := { d3 with collections := d3.collections + 1 }
  let d5 := if rt.diagnostics_memory_enabled m2 then rt.update d4 else d4
  let m3 := if rt.diagnostics_memory_enabled m2 then rt.report_diagnostics m2 d5 else m2
  let m4 := rt.restart m3 d5.percentage ((d5.total_bytes : Int) - (d5.bytes : Int))
  ({ self with diagnostic_ := d5 }, m4)

end ImmixGC

/-! ## `InflatedHeaders` -/

/-- `UINT32_MAX`. -/
def UINT32_MAX : Nat := 4294967295

/-- Modelled from the spec: the chunked, freelist-backed slot allocator
`Allocator<T>` ("an arena of fixed-size slots addressed by integer index, with
a free-index stack"); each chunk is an array of `cChunkSize` slots. -/
structure Allocator (T : Type) where
  chunks_ : List (List T)
  in_use_ : Nat
  free_list_ : List Nat

/-- The members of `InflatedHeaders`. -/
structure InflatedHeaders (T : Type) where
  allocator_ : Allocator T
  diagnostic_ : diagnostics.InflatedHeader

namespace InflatedHeaders

/-- `InflatedHeaders::allocate(state, obj, index)`.  `allocate_index` and
`from_index` belong to the slot allocator and are parameters; the result is the
returned header pointer, the value written to `*index`, the table and the
memory manager. -/
def allocate {T P ε : Type} (allocate_index : Allocator T → Bool → Nat × Bool × Allocator T)
    (from_index : Allocator T → Nat → P) (self : InflatedHeaders T) (memory : Memory ε) :
    Except Failure (P × Nat × InflatedHeaders T × Memory ε) :=
  match allocate_index self.allocator_ false with
  | (header_index, needs_gc, a1) =>
    if header_index > UINT32_MAX then
      .error (.fatal
        "Rubinius can't handle more than 4G inflated headers active at the same time")
    else
      let index := header_index % 2 ^ 32
      let header := from_index a1 header_index
      if needs_gc then
        .ok (header, index,
             { allocator_ := a1,
               diagnostic_ := { self.diagnostic_ with
                 collections := self.diagnostic_.collections + 1 } },
             memory.schedule_full_collection "Inflated headers")
      else
        .ok (header, index, { self with allocator_ := a1 }, memory)

/-- The inner loop of `deallocate_headers` over the slots of one chunk, carrying
`chunk_marks[i]` and `diagnostic()->objects`. -/
def deallocate_slots {T : Type} (marked_p : T → Nat → Bool) (clear : T → T) (mark : Nat) :
    List T → Bool → Nat → List T × Bool × Nat
  | [], chunk_mark, objects => ([], chunk_mark, objects)
  | header :: rest, chunk_mark, objects =>
    if marked_p header mark then
      match deallocate_slots marked_p clear mark rest true (objects + 1) with
      | (rest1, chunk_mark1, objects1) => (header :: rest1, chunk_mark1, objects1)
    else
      match deallocate_slots marked_p clear mark rest chunk_mark objects with
      | (rest1, chunk_mark1, objects1) => (clear header :: rest1, chunk_mark1, objects1)

/-- The outer loop of `deallocate_headers` over the chunks; `chunk_marks` starts
all false, so each chunk's entry starts false. -/
def deallocate_chunks {T : Type} (marked_p : T → Nat → Bool) (clear : T → T) (mark : Nat) :
    List (List T) → Nat → List (List T) × List Bool × Nat
  | [], objects => ([], [], objects)
  | chunk :: rest, objects =>
    match deallocate_slots marked_p clear mark chunk false objects with
    | (chunk1, chunk_mark, objects1) =>
      match deallocate_chunks marked_p clear mark rest objects1 with
      | (rest1, chunk_marks, objects2) => (chunk1 :: rest1, chunk_mark :: chunk_marks, objects2)

/-- `InflatedHeaders::deallocate_headers(mark)`.  `marked_p` and `clear` are the
inflated header's own, `rebuild_freelist` the slot allocator's, `sizeof_header`
is `sizeof(InflatedHeader)`. -/
def deallocate_headers {T : Type} (marked_p : T → Nat → Bool) (clear : T → T)
    (rebuild_freelist : Allocator T → List Bool → Allocator T) (sizeof_header : Nat)
    (self : InflatedHeaders T) (mark : Nat) : InflatedHeaders T :=
  match deallocate_chunks marked_p clear mark self.allocator_.chunks_ 0 with
  | (chunks1, chunk_marks, objects) =>
    let a1 := rebuild_freelist { self.allocator_ with chunks_ := chunks1 } chunk_marks
    { allocator_ := a1,
      diagnostic_ := { self.diagnostic_ with
        objects := objects, bytes := a1.in_use_ * sizeof_header } }

end InflatedHeaders

/-- Modelled from the spec: an inflated header record as the sweep sees it: its
owner and the mark of its owner ("an inflated header's liveness tracks its
owner object's mark bit exactly"). -/
structure InflatedHeader where
  object_ : Address
  Marked : Nat
  deriving DecidableEq, Repr

/-- Modelled from the spec: `InflatedHeader::marked_p(which)`. -/
def InflatedHeader.marked_p (h : InflatedHeader) (which : Nat) : Bool := h.Marked == which

/-- Modelled from the spec: `InflatedHeader::clear()`, which empties the slot. -/
def InflatedHeader.clear (_h : InflatedHeader) : InflatedHeader := ⟨null, 0⟩

/-! ## The collection driver: `saw_object`, `collect_scan`, `collect_finish` -/

/-- Modelled from the spec: a native-extension handle, "with
in-use/weak/validity/native-data flags", and the object it refers to. -/
structure Handle where
  in_use : Bool
  weak : Bool
  valid : Bool
  rdata : Bool
  object_ : Address
  deriving DecidableEq, Repr

/-- Modelled from the spec: `Handle::in_use_p()`. -/
def Handle.in_use_p (h : Handle) : Bool := h.in_use

/-- Modelled from the spec: `Handle::weak_p()`. -/
def Handle.weak_p (h : Handle) : Bool := h.weak

/-- Modelled from the spec: `Handle::valid_p()`. -/
def Handle.valid_p (h : Handle) : Bool := h.valid

/-- Modelled from the spec: `Handle::is_rdata()`. -/
def Handle.is_rdata (h : Handle) : Bool := h.rdata

/-- Modelled from the spec: `Handle::object()`. -/
def Handle.object (h : Handle) : Address := h.object_

/-- Modelled from the spec: `Handle::set_object(obj)`. -/
def Handle.set_object (h : Handle) (obj : Address) : Handle := { h with object_ := obj }

/-- Handle memory: the handle record behind each handle pointer. -/
abbrev Handles := Nat → Handle

/-- The scan context `GCData`: the caller's root set, the registered threads,
the handle table (handle memory and the handle pointers its allocator iterates
over) and the global handle locations (the handle pointer each location holds;
`none` when the list pointer is null). -/
structure GCData where
  roots : List Address
  threads : List Nat
  handles : Handles
  handle_slots : List Nat
  global_handle_locations : Option (List Nat)

/-- A call from the driver into a collaborator, or a diagnostic it prints. -/
inductive Event where
  /-- `gc_.mark_address(Address(obj), allocator_)` from `saw_object` -/
  | mark_address (obj : Address)
  /-- `scan(thread, false)` -/
  | scan (thread : Nat)
  | process_mark_stack
  | swap_marked_set
  | scan_object (obj : Address)
  /-- the message "Detected bad handle checking global capi handles" -/
  | bad_handle (hdl : Nat)
  | clean_weakrefs
  /-- `finalizer->gc_scan(this, memory_)` -/
  | gc_scan
  /-- `finalizer->list_condition().notify_one()` -/
  | notify_one
  | clean_locked_objects (thread : Nat)
  | unremember_objects (mark : Nat)
  deriving DecidableEq, Repr

/-- The events through which objects get marked, traced or relocated, and the
bad-handle report of the root scan. -/
def Event.marking : Event → Bool
  | .mark_address _ => true
  | .scan _ => true
  | .process_mark_stack => true
  | .swap_marked_set => true
  | .scan_object _ => true
  | .bad_handle _ => true
  | _ => false

/-- The state a collection cycle threads through the driver: the memory manager
and the calls made so far, oldest first. -/
structure Cycle (ε : Type) where
  memory_ : Memory ε
  log : List Event

namespace ImmixGC

/-- `ImmixGC::saw_object(obj)`; the result is `null` for `NULL`. -/
def saw_object {ε : Type} (rt : Collaborators ε) (c : Cycle ε) (obj : Address) :
    Except Failure (Address × Cycle ε) :=
  if !rt.REFERENCE_P obj then .ok (null, c)
  else
    match rt.gc_mark_address c.memory_ obj with
    | (copy, m1) =>
      let c1 : Cycle ε := { memory_ := m1, log := c.log ++ [Event.mark_address obj] }
      if copy ≠ null ∧ copy ≠ obj then
        -- obj->set_forward(copy)
        match load m1.heap obj with
        | .error e => .error e
        | .ok o =>
          .ok (copy, { c1 with memory_ :=
            { m1 with heap := (Function.update m1.heap obj (o.set_forward copy)) } })
      else .ok (null, c1)

/-- `ImmixGC::process_mark_stack()`. -/
def process_mark_stack {ε : Type} (rt : Collaborators ε) (c : Cycle ε) : Bool × Cycle ε :=
  match rt.process_mark_stack c.memory_ with
  | (more, m1) => (more, { memory_ := m1, log := c.log ++ [Event.process_mark_stack] })

/-- One step of the first loop of `collect_scan`: a root of the caller's set. -/
def visit_root {ε : Type} (rt : Collaborators ε) (c : Cycle ε) (root : Address) :
    Except Failure (Address × Cycle ε) :=
  match saw_object rt c root with
  | .error e => .error e
  | .ok (fwd, c1) => if fwd ≠ null then .ok (fwd, c1) else .ok (root, c1)

/-- The first loop of `collect_scan`. -/
def scan_roots {ε : Type} (rt : Collaborators ε) :
    List Address → Cycle ε → Except Failure (List Address × Cycle ε)
  | [], c => .ok ([], c)
  | root :: rest, c =>
    match visit_root rt c root with
    | .error e => .error e
    | .ok (root1, c1) =>
      match scan_roots rt rest c1 with
      | .error e => .error e
      | .ok (rest1, c2) => .ok (root1 :: rest1, c2)

/-- The second loop of `collect_scan`, over the registered threads. -/
def scan_threads {ε : Type} (rt : Collaborators ε) : List Nat → Cycle ε → Cycle ε
  | [], c => c
  | t :: rest, c =>
    scan_threads rt rest { memory_ := rt.scan c.memory_ t, log := c.log ++ [Event.scan t] }

/-- One step of the third loop of `collect_scan`: the handle at `hdl`. -/
def visit_handle {ε : Type} (rt : Collaborators ε) (hs : Handles) (c : Cycle ε) (hdl : Nat) :
    Except Failure (Handles × Cycle ε) :=
  if (hs hdl).in_use_p && !(hs hdl).weak_p then
    match saw_object rt c (hs hdl).object with
    | .error e => .error e
    | .ok (fwd, c1) =>
      if fwd ≠ null then .ok (Function.update hs hdl ((hs hdl).set_object fwd), c1)
      else .ok (hs, c1)
  else .ok (hs, c)

/-- The third loop of `collect_scan`, over the handle table. -/
def scan_handles {ε : Type} (rt : Collaborators ε) :
    List Nat → Handles → Cycle ε → Except Failure (Handles × Cycle ε)
  | [], hs, c => .ok (hs, c)
  | hdl :: rest, hs, c =>
    match visit_handle rt hs c hdl with
    | .error e => .error e
    | .ok (hs1, c1) => scan_handles rt rest hs1 c1

/-- One step of the fourth loop of `collect_scan`: a global handle location
holding the handle pointer `hdl`. -/
def visit_global_handle {ε : Type} (rt : Collaborators ε) (hs : Handles) (c : Cycle ε)
    (hdl : Nat) : Except Failure (Handles × Cycle ε) :=
  if hdl ≠ 0 then
    if !rt.REFERENCE_P hdl then .ok (hs, c)
    else if (hs hdl).valid_p then
      let obj := (hs hdl).object
      if obj ≠ null ∧ rt.REFERENCE_P obj = true then
        match saw_object rt c obj with
        | .error e => .error e
        | .ok (fwd, c1) =>
          if fwd ≠ null then .ok (Function.update hs hdl ((hs hdl).set_object fwd), c1)
          else .ok (hs, c1)
      else .ok (hs, c)
    else .ok (hs, { c with log := c.log ++ [Event.bad_handle hdl] })
  else .ok (hs, c)

/-- The fourth loop of `collect_scan`, over the global handle locations. -/
def scan_global_handles {ε : Type} (rt : Collaborators ε) :
    List Nat → Handles → Cycle ε → Except Failure (Handles × Cycle ε)
  | [], hs, c => .ok (hs, c)
  | hdl :: rest, hs, c =>
    match visit_global_handle rt hs c hdl with
    | .error e => .error e
    | .ok (hs1, c1) => scan_global_handles rt rest hs1 c1

/-- `ImmixGC::collect_scan(data)`.  The lock on the thread registry is not
modelled. -/
def collect_scan {ε : Type} (rt : Collaborators ε) (data : GCData) (c : Cycle ε) :
    Except Failure (GCData × Cycle ε) :=
  match scan_roots rt data.roots c with
  | .error e => .error e
  | .ok (roots1, c1) =>
    let c2 := scan_threads rt data.threads c1
    match scan_handles rt data.handle_slots data.handles c2 with
    | .error e => .error e
    | .ok (hs3, c3) =>
      match data.global_handle_locations with
      | none => .ok ({ data with roots := roots1, handles := hs3 }, c3)
      | some gh =>
        match scan_global_handles rt gh hs3 c3 with
        | .error e => .error e
        | .ok (hs4, c4) => .ok ({ data with roots := roots1, handles := hs4 }, c4)

/-- One step of the loop of `collect_finish` over the swapped marked set. -/
def visit_marked {ε : Type} (rt : Collaborators ε) (c : Cycle ε) (obj : Address) :
    Except Failure (Address × Cycle ε) :=
  if obj ≠ null then
    match saw_object rt c obj with
    | .error e => .error e
    | .ok (fwd, c1) => if fwd ≠ null then .ok (fwd, c1) else .ok (obj, c1)
  else .ok (obj, c)

/-- The loop of `collect_finish` over the swapped marked set. -/
def scan_marked_set {ε : Type} (rt : Collaborators ε) :
    List Address → Cycle ε → Except Failure (List Address × Cycle ε)
  | [], c => .ok ([], c)
  | obj :: rest, c =>
    match visit_marked rt c obj with
    | .error e => .error e
    | .ok (obj1, c1) =>
      match scan_marked_set rt rest c1 with
      | .error e => .error e
      | .ok (rest1, c2) => .ok (obj1 :: rest1, c2)

/-- The `for` loop inside the `do ... while` of `collect_finish`: rescan the
in-use handles that hold native data and whose object is marked. -/
def rescan_rdata {ε : Type} (rt : Collaborators ε) (hs : Handles) :
    List Nat → Cycle ε → Except Failure (Cycle ε)
  | [], c => .ok c
  | i :: rest, c =>
    let hdl := hs i
    if !hdl.in_use_p then rescan_rdata rt hs rest c
    else if hdl.is_rdata then
      match load c.memory_.heap hdl.object with
      | .error e => .error e
      | .ok obj =>
        if obj.marked_p c.memory_.mark then
          rescan_rdata rt hs rest
            { memory_ := rt.scan_object c.memory_ hdl.object,
              log := c.log ++ [Event.scan_object hdl.object] }
        else rescan_rdata rt hs rest c
    else rescan_rdata rt hs rest c

/-- The `do ... while(process_mark_stack())` loop of `collect_finish`; each unit
of fuel pays for one round. -/
def rescan_rdata_loop {ε : Type} (rt : Collaborators ε) (data : GCData) :
    Nat → Cycle ε → Except Failure (Cycle ε)
  | 0, _ => .error .out_of_fuel
  | fuel + 1, c =>
    match rescan_rdata rt data.handles data.handle_slots c with
    | .error e => .error e
    | .ok c1 =>
      match process_mark_stack rt c1 with
      | (more, c2) => if more then rescan_rdata_loop rt data fuel c2 else .ok c2

/-- The loop of `collect_finish` that removes dead locked objects per thread. -/
def clean_locked {ε : Type} (rt : Collaborators ε) : List Nat → Cycle ε → Cycle ε
  | [], c => c
  | t :: rest, c =>
    clean_locked rt rest
      { memory_ := rt.clean_locked_objects c.memory_ t,
        log := c.log ++ [Event.clean_locked_objects t] }

/-- The part of `collect_finish` from `clean_weakrefs()` to the end; nothing in
it loops without bound or dereferences an object. -/
def finish_tail {ε : Type} (rt : Collaborators ε) (data : GCData) (c : Cycle ε) : Cycle ε :=
  let c1 : Cycle ε :=
    { memory_ := rt.clean_weakrefs c.memory_, log := c.log ++ [Event.clean_weakrefs] }
  let c2 : Cycle ε :=
    if rt.finalizer c1.memory_ then
      let c1a : Cycle ε :=
        { memory_ := rt.gc_scan c1.memory_, log := c1.log ++ [Event.gc_scan] }
      let c1b := (process_mark_stack rt c1a).2
      { c1b with log := c1b.log ++ [Event.notify_one] }
    else c1
  let c3 := clean_locked rt data.threads c2
  let mark := c3.memory_.mark
  { memory_ := rt.unremember_objects c3.memory_ mark,
    log := c3.log ++ [Event.unremember_objects mark] }

/-- `ImmixGC::collect_finish(data)`, with `fuel` rounds for its
`do ... while` loop.  The locks are not modelled. -/
def collect_finish {ε : Type} (rt : Collaborators ε) (fuel : Nat) (data : GCData)
    (c : Cycle ε) : Except Failure (GCData × Cycle ε) :=
  match collect_scan rt data c with
  | .error e => .error e
  | .ok (data1, c1) =>
    let c2 := (process_mark_stack rt c1).2
    match rt.swap_marked_set c2.memory_ with
    | (marked_set, m3) =>
      let c3 : Cycle ε := { memory_ := m3, log := c2.log ++ [Event.swap_marked_set] }
      match scan_marked_set rt marked_set c3 with
      | .error e => .error e
      | .ok (_, c4) =>
        match rescan_rdata_loop rt data1 fuel c4 with
        | .error e => .error e
        | .ok c5 => .ok (data1, finish_tail rt data1 c5)

end ImmixGC

/-! ## Repeated calls and concrete states used by the theorems -/

/-- The chunk-added hook called once per element of `counts`, in order, on a
freshly constructed collector whose describer points at `m`. -/
def added_chunks {ε : Type} (m : Memory ε) (counts : List Int) : Option (Memory ε) × ImmixGC :=
  counts.foldl (fun st k => ObjectDescriber.added_chunk st.1 st.2 k) (some m, ImmixGC.new)

/-- A heap with a forwarded young object at 16 (forwarded to 24), a young
object at 32 that is not forwarded, a mature in-region object at 48 that is
marked under generation 1, and unmarked mature in-region objects elsewhere. -/
def demo_heap : Heap := fun a =>
  if a = 16 then ⟨0, true, 24, .YoungObjectZone, false, 32⟩
  else if a = 32 then ⟨0, false, 0, .YoungObjectZone, false, 32⟩
  else if a = 48 then ⟨1, false, 0, .MatureObjectZone, true, 32⟩
  else ⟨0, false, 0, .MatureObjectZone, true, 32⟩

/-- What the demo collaborators keep: the remembered addresses, the arguments
of every `restart`, the number of drains of the mark stack that still find
work, and the calls made on the memory manager, oldest first. -/
structure DemoExt where
  remembered : List Address
  restarts : List (Occupancy × Int)
  pending : Nat
  calls : List String
  deriving DecidableEq, Repr

/-- A memory manager over `demo_heap`, in mark generation 1, with work for two
drains of the mark stack. -/
def demo_memory : Memory DemoExt := ⟨demo_heap, 1, 0, [], ⟨[], [], 2, []⟩⟩

/-- The demo collaborators record each call in the memory manager itself. -/
def demo_call (name : String) (m : Memory DemoExt) : Memory DemoExt :=
  { m with ext := { m.ext with calls := m.ext.calls ++ [name] } }

/-- Collaborators for the concrete runs: words with the two low bits clear are
references; the mark engine relocates the objects at 32, 96 and 112 to 64, 104
and 120 and leaves every other object in place; the allocator is exhausted (it
returns null); a drain of the mark stack reports more work as long as work is
pending and takes one unit of it; a finalizer is present; the region is one
chunk of one block with 1 hole, 2 objects and 100 live bytes.  The calls of
`collect_finish` after the marking phase, and the drains, record themselves. -/
def demo_rt : Collaborators DemoExt where
  REFERENCE_P := fun w => w % 4 == 0
  gc_mark_address := fun m a =>
    (if a = 32 then 64 else if a = 96 then 104 else if a = 112 then 120 else a, m)
  process_mark_stack := fun m =>
    (decide (0 < m.ext.pending),
     demo_call "process_mark_stack" { m with ext := { m.ext with pending := m.ext.pending - 1 } })
  copy_marks := fun m => m
  sweep_blocks := fun m => m
  chunks := fun _ => [[⟨1, 2, 100⟩]]
  allocate := fun m _ collect_now => (null, collect_now, m)
  restart := fun m occ free =>
    { m with ext := { m.ext with restarts := m.ext.restarts ++ [(occ, free)] } }
  scan := fun m _ => m
  scan_object := fun m _ => demo_call "scan_object" m
  clean_weakrefs := fun m => demo_call "clean_weakrefs" m
  clean_locked_objects := fun m _ => demo_call "clean_locked_objects" m
  remember_object := fun m a =>
    { m with ext := { m.ext with remembered := m.ext.remembered ++ [a] } }
  swap_marked_set := fun m => ([32, 0, 48], m)
  unremember_objects := fun m _ => demo_call "unremember_objects" m
  finalizer := fun _ => true
  gc_scan := fun m => demo_call "gc_scan" m
  initialize_full_state := fun _ other _ => other
  init_header := fun o z => { o with zone := z }
  copy_bytes := fun _ src _ => src
  cMaxObjectSize := 8192
  cBlockSize := 32768
  diagnostics_memory_enabled := fun _ => false
  update := fun d => d
  report_diagnostics := fun m _ => m

/-- A slot allocator for the concrete runs: it hands out the index given and
reports growth as told; `from_index` is the identity on indices. -/
def demo_allocate_index (index : Nat) (grow : Bool) :
    Allocator InflatedHeader → Bool → Nat × Bool × Allocator InflatedHeader :=
  fun a needs_gc => (index, needs_gc || grow, { a with in_use_ := a.in_use_ + 1 })

/-- A table of one chunk with 10 allocated headers, owned by the objects at
8, 16, ..., 80; the owners at 16, 40 and 72 are marked under generation 1, the
others under the previous generation 2. -/
def demo_headers : InflatedHeaders InflatedHeader :=
  { allocator_ :=
      { chunks_ := [[⟨8, 2⟩, ⟨16, 1⟩, ⟨24, 2⟩, ⟨32, 2⟩, ⟨40, 1⟩,
                     ⟨48, 2⟩, ⟨56, 2⟩, ⟨64, 2⟩, ⟨72, 1⟩, ⟨80, 2⟩]],
        in_use_ := 10, free_list_ := [] },
    diagnostic_ := ⟨10, 160, 0⟩ }

/-- A scan context: roots 32, 7 (not a reference) and 48; one thread; handles
at 4 (in use, object 32), 8 (in use, weak, valid, object 96), 12 (not in use),
20 (in use, not weak, invalid, object 112) and 24 (in use, native data, object
48); global handle locations holding 0, 5, 8 and 20. -/
def demo_data : GCData :=
  { roots := [32, 7, 48],
    threads := [1],
    handles := fun hdl =>
      if hdl = 4 then ⟨true, false, true, false, 32⟩
      else if hdl = 8 then ⟨true, true, true, false, 96⟩
      else if hdl = 20 then ⟨true, false, false, false, 112⟩
      else if hdl = 24 then ⟨true, false, true, true, 48⟩
      else ⟨false, false, true, false, 0⟩,
    handle_slots := [4, 8, 12, 20, 24],
    global_handle_locations := some [0, 5, 8, 20] }

/-- The demo collector after one sweep. -/
def demo_swept_once : ImmixGC × Memory DemoExt := ImmixGC.sweep demo_rt ImmixGC.new demo_memory

/-- The demo collector after a second sweep. -/
def demo_swept_twice : ImmixGC × Memory DemoExt :=
  ImmixGC.sweep demo_rt demo_swept_once.1 demo_swept_once.2

/-- What `deallocate_headers` leaves in a slot: the header itself when it is
marked under `mark`, the cleared header otherwise. -/
def retained_or_cleared {T : Type} (marked_p : T → Nat → Bool) (clear : T → T) (mark : Nat)
    (header : T) : T :=
  if marked_p header mark then header else clear header

/-- The cycle `c1` continues the cycle `c` by marking events only. -/
def Cycle.marks_from {ε : Type} (c c1 : Cycle ε) : Prop :=
  ∃ evs : List Event, c1.log = c.log ++ evs ∧ ∀ e ∈ evs, e.marking = true

/-- Every in-use native-data handle among `slots` refers to an object. -/
def rdata_ready (hs : Handles) (slots : List Nat) : Prop :=
  ∀ i ∈ slots, (hs i).in_use = true → (hs i).rdata = true → (hs i).object_ ≠ null

/-- What the native-data rescan does to memory at one handle of the table: an
in-use handle that holds native data and whose object is marked under the
current generation has its object traced again. -/
def rescan_step {ε : Type} (rt : Collaborators ε) (hs : Handles) (m : Memory ε) (i : Nat) :
    Memory ε :=
  if (hs i).in_use = true ∧ (hs i).rdata = true ∧ (m.heap (hs i).object_).Marked = m.mark then
    rt.scan_object m (hs i).object_
  else m

/-- `Drained rt hs slots m m5`: from memory `m`, rounds of "rescan every
native-data handle of the table, then drain the mark stack" lead to `m5`, which
is what the first drain that reports no more work leaves. -/
inductive Drained {ε : Type} (rt : Collaborators ε) (hs : Handles) (slots : List Nat) :
    Memory ε → Memory ε → Prop where
  | last (m : Memory ε) :
      (rt.process_mark_stack (slots.foldl (rescan_step rt hs) m)).1 = false →
      Drained rt hs slots m (rt.process_mark_stack (slots.foldl (rescan_step rt hs) m)).2
  | more (m m5 : Memory ε) :
      (rt.process_mark_stack (slots.foldl (rescan_step rt hs) m)).1 = true →
      Drained rt hs slots (rt.process_mark_stack (slots.foldl (rescan_step rt hs) m)).2 m5 →
      Drained rt hs slots m m5

/-! ## Theorems -/

/-- C1. Mark idempotence: on the address of any object, for any mark stack and
any two push flags, the first `mark_address` returns, and a second call on the
state it left returns false and leaves memory (hence the mark bit, set for the
current generation) and the mark stack exactly as the first call left them; the
address was pushed at most once. -/
theorem mark_address_idempotent {ε : Type} (memory_ : Memory ε) (addr : Address)
    (ms : MarkStack) (push1 push2 : Bool) (haddr : addr ≠ null) :
    ∃ r memory1 ms1,
      ObjectDescriber.mark_address memory_ addr ms push1 = .ok (r, memory1, ms1) ∧
      ObjectDescriber.mark_address memory1 addr ms1 push2 = .ok (false, memory1, ms1) ∧
      memory1.mark = memory_.mark ∧
      (memory1.heap addr).marked_p memory_.mark = true ∧
      (ms1 = ms ∨ ms1 = ms ++ [addr]) := by
  by_cases hm : (memory_.heap addr).marked_p memory_.mark = true
  · refine ⟨false, memory_, ms, ?_, ?_, rfl, hm, Or.inl rfl⟩ <;>
      simp [ObjectDescriber.mark_address, load, haddr, hm]
  · refine ⟨((memory_.heap addr).mark memory_.mark).in_immix_p,
      { memory_ with heap := (Function.update memory_.heap addr
          ((memory_.heap addr).mark memory_.mark)) },
      if push1 then ms ++ [addr] else ms, ?_, ?_, rfl, ?_, ?_⟩
    · simp [ObjectDescriber.mark_address, load, haddr, hm]
    · simp [ObjectDescriber.mark_address, load, haddr, Object.marked_p, Object.mark]
    · simp [Object.marked_p, Object.mark]
    · cases push1 <;> simp

/-- Witness for C1 on a one-object heap. -/
theorem mark_address_idempotent_witness :
    ∃ r memory1 ms1,
      ObjectDescriber.mark_address
        (⟨fun _ => ⟨0, false, 0, .MatureObjectZone, true, 32⟩, 1, 0, [], ()⟩ : Memory Unit)
        16 [] true = .ok (r, memory1, ms1) ∧
      ObjectDescriber.mark_address memory1 16 ms1 false = .ok (false, memory1, ms1) ∧
      memory1.mark = 1 ∧
      (memory1.heap 16).marked_p 1 = true ∧
      (ms1 = [] ∨ ms1 = [] ++ [16]) :=
  mark_address_idempotent _ 16 [] true false (by decide)

/-- C2. On an object not yet marked under the current generation,
`mark_address` sets the mark for that generation (touching nothing else in
memory), appends the address to the mark stack exactly when the push flag is
true, and returns the object's in-region flag. -/
theorem mark_address_unmarked {ε : Type} (memory_ : Memory ε) (addr : Address)
    (ms : MarkStack) (push : Bool) (haddr : addr ≠ null)
    (hun : (memory_.heap addr).marked_p memory_.mark = false) :
    ObjectDescriber.mark_address memory_ addr ms push =
      .ok ((memory_.heap addr).InImmix,
           { memory_ with heap := (Function.update memory_.heap addr
               { (memory_.heap addr) with Marked := memory_.mark }) },
           if push then ms ++ [addr] else ms) := by
  simp [ObjectDescriber.mark_address, load, haddr, hun, Object.mark, Object.in_immix_p]

/-- Witness for C2: an unmarked young object, pushed. -/
theorem mark_address_unmarked_witness :
    ObjectDescriber.mark_address
        (⟨fun _ => ⟨0, false, 0, .YoungObjectZone, false, 32⟩, 1, 0, [], ()⟩ : Memory Unit)
        16 [8] true =
      .ok (false,
           { (⟨fun _ => ⟨0, false, 0, .YoungObjectZone, false, 32⟩, 1, 0, [], ()⟩ :
                Memory Unit) with
             heap := Function.update (fun _ => ⟨0, false, 0, .YoungObjectZone, false, 32⟩) 16
               ⟨1, false, 0, .YoungObjectZone, false, 32⟩ },
           [8, 16]) :=
  mark_address_unmarked _ 16 [8] true (by decide) (by decide)

/-- C3. `update_pointer` on the address of an object: a forwarded young target
gives its forwarding address, a young target that is not forwarded gives null,
and in both cases memory (the remembered set included) is untouched; a mature
target is handed to `remember_object` and its address is returned unchanged. -/
theorem update_pointer_cases {ε : Type} (rt : Collaborators ε)
    (memory_ : Memory ε) (addr : Address) (haddr : addr ≠ null) :
    ((memory_.heap addr).zone = gc_zone.YoungObjectZone →
        (memory_.heap addr).Forwarded = true →
        ObjectDescriber.update_pointer rt memory_ addr =
          ((memory_.heap addr).forward_, memory_)) ∧
    ((memory_.heap addr).zone = gc_zone.YoungObjectZone →
        (memory_.heap addr).Forwarded = false →
        ObjectDescriber.update_pointer rt memory_ addr = (null, memory_)) ∧
    ((memory_.heap addr).zone = gc_zone.MatureObjectZone →
        ObjectDescriber.update_pointer rt memory_ addr =
          (addr, rt.remember_object memory_ addr)) := by
  refine ⟨?_, ?_, ?_⟩
  · intro hz hf
    simp [ObjectDescriber.update_pointer, haddr, Object.young_object_p, hz,
      Object.forwarded_p, hf, Object.forward]
  · intro hz hf
    simp [ObjectDescriber.update_pointer, haddr, Object.young_object_p, hz,
      Object.forwarded_p, hf]
  · intro hz
    simp [ObjectDescriber.update_pointer, haddr, Object.young_object_p, hz]

/-- Witness for C3 on the three kinds of target in `demo_heap`. -/
theorem update_pointer_cases_witness :
    ObjectDescriber.update_pointer demo_rt demo_memory 16 = (24, demo_memory) ∧
    ObjectDescriber.update_pointer demo_rt demo_memory 32 = (null, demo_memory) ∧
    ObjectDescriber.update_pointer demo_rt demo_memory 48 =
      (48, demo_rt.remember_object demo_memory 48) :=
  ⟨(update_pointer_cases demo_rt demo_memory 16 (by decide)).1 rfl rfl,
   (update_pointer_cases demo_rt demo_memory 32 (by decide)).2.1 rfl rfl,
   (update_pointer_cases demo_rt demo_memory 48 (by decide)).2.2 rfl⟩

/-- C5. What the code does when the region allocator returns the null address:
`ObjectDescriber::copy` initialises the header through it and
`ImmixGC::move_object` copies the original through it, so neither returns a
null object: both dereference null. -/
theorem copy_move_null_allocation {ε : Type} (rt : Collaborators ε) (memory_ : Memory ε)
    (original : Address) (bytes : Nat) (collect_now : Bool) (horig : original ≠ null)
    (hcopy : (rt.allocate memory_ (memory_.heap original).size_in_bytes false).1 = null)
    (hfit : bytes ≤ rt.cMaxObjectSize)
    (hmove : (rt.allocate memory_ bytes collect_now).1 = null) :
    ObjectDescriber.copy rt memory_ original = .error .null_dereference ∧
    ImmixGC.move_object rt memory_ original bytes collect_now =
      .error .null_dereference := by
  constructor
  · rcases hc : rt.allocate memory_ (memory_.heap original).size_in_bytes false with
      ⟨copy_addr, collect_flag, m1⟩
    rw [hc] at hcopy
    simp only at hcopy
    subst hcopy
    simp [ObjectDescriber.copy, load, store, horig, hc]
  · rcases hm : rt.allocate memory_ bytes collect_now with ⟨obj, collect_now1, m1⟩
    rw [hm] at hmove
    simp only at hmove
    subst hmove
    by_cases hb : bytes = 0
    · subst hb
      simp [ImmixGC.move_object, ImmixGC.memcpy, load, hm]
    · simp [ImmixGC.move_object, ImmixGC.memcpy, load, store, horig, hm, hb,
        Nat.not_lt.mpr hfit]

/-- Witness for C5: the exhausted allocator of `demo_rt`, the object at 48. -/
theorem copy_move_null_allocation_witness :
    ObjectDescriber.copy demo_rt demo_memory 48 = .error .null_dereference ∧
    ImmixGC.move_object demo_rt demo_memory 48 32 false = .error .null_dereference :=
  copy_move_null_allocation demo_rt demo_memory 48 32 false (by decide) rfl
    (by decide) rfl

/-- The sibling path: on an exhausted allocator `ImmixGC::allocate` checks the
pointer and returns null, writing no header. -/
theorem allocate_null_checked {ε : Type} (rt : Collaborators ε) (memory_ : Memory ε)
    (bytes : Nat) (collect_now collect_now1 : Bool) (m1 : Memory ε)
    (h : rt.allocate memory_ bytes collect_now = (null, collect_now1, m1)) :
    ImmixGC.allocate rt memory_ bytes collect_now = (null, collect_now1, m1) ∨
    ImmixGC.allocate rt memory_ bytes collect_now = (null, collect_now, memory_) := by
  by_cases hb : bytes > rt.cMaxObjectSize
  · right; simp [ImmixGC.allocate, hb]
  · left; simp [ImmixGC.allocate, hb, h]

/-- C6. `InflatedHeaders::allocate` aborts exactly when the index from the slot
allocator exceeds `UINT32_MAX`; otherwise it returns the header at the very
index it writes to the out-parameter, and it counts a collection and schedules
a full collection exactly when the slot allocator reported growth. -/
theorem inflated_allocate_spec {T P ε : Type}
    (allocate_index : Allocator T → Bool → Nat × Bool × Allocator T)
    (from_index : Allocator T → Nat → P) (self : InflatedHeaders T) (memory : Memory ε)
    (header_index : Nat) (needs_gc : Bool) (a1 : Allocator T)
    (h : allocate_index self.allocator_ false = (header_index, needs_gc, a1)) :
    ((∃ msg, InflatedHeaders.allocate allocate_index from_index self memory =
        .error (.fatal msg)) ↔ header_index > UINT32_MAX) ∧
    (header_index ≤ UINT32_MAX →
      InflatedHeaders.allocate allocate_index from_index self memory =
        .ok (from_index a1 header_index, header_index,
             { allocator_ := a1,
               diagnostic_ := { self.diagnostic_ with
                 collections := self.diagnostic_.collections + (if needs_gc then 1 else 0) } },
             { memory with
               scheduled := memory.scheduled ++
                 (if needs_gc then ["Inflated headers"] else []) })) := by
  constructor
  · constructor
    · rintro ⟨msg, hmsg⟩
      by_contra hle
      cases needs_gc <;> simp [InflatedHeaders.allocate, h, hle] at hmsg
    · intro hgt
      refine ⟨"Rubinius can't handle more than 4G inflated headers active at the same time",
        ?_⟩
      simp [InflatedHeaders.allocate, h, hgt]
  · intro hle
    have hlt : header_index < 4294967296 := by
      have : header_index ≤ 4294967295 := hle
      omega
    cases needs_gc <;>
      simp [InflatedHeaders.allocate, h, Nat.not_lt.mpr hle, hlt,
        Memory.schedule_full_collection]

/-- Witness for C6: index 7 with growth reported, on the demo table. -/
theorem inflated_allocate_spec_witness :
    ((∃ msg, InflatedHeaders.allocate (demo_allocate_index 7 true) (fun _ i => i)
        demo_headers demo_memory = .error (.fatal msg)) ↔ 7 > UINT32_MAX) ∧
    (7 ≤ UINT32_MAX →
      InflatedHeaders.allocate (demo_allocate_index 7 true) (fun _ i => i)
          demo_headers demo_memory =
        .ok (7, 7,
             { allocator_ := { demo_headers.allocator_ with in_use_ := 11 },
               diagnostic_ := { demo_headers.diagnostic_ with
                 collections := demo_headers.diagnostic_.collections +
                   (if true then 1 else 0) } },
             { demo_memory with
               scheduled := demo_memory.scheduled ++
                 (if true then ["Inflated headers"] else []) })) :=
  inflated_allocate_spec (demo_allocate_index 7 true) (fun _ i => i) demo_headers
    demo_memory 7 true { demo_headers.allocator_ with in_use_ := 11 } rfl

/-- One call of the chunk-added hook with a memory manager attached, on a
collector whose budget is 10. -/
theorem added_chunk_step {ε : Type} (m : Memory ε) (gc : ImmixGC) (k : Int) :
    ObjectDescriber.added_chunk (some m) gc k =
      (some { m with immix_chunks := m.immix_chunks + 1 },
       { gc with chunks_left_ :=
          if gc.chunks_left_ - 1 ≤ 0 then gc.chunks_before_collection_
          else gc.chunks_left_ - 1 }) := by
  by_cases h : gc.chunks_left_ - 1 ≤ 0 <;>
    simp [ObjectDescriber.added_chunk, ImmixGC.dec_chunks_left, ImmixGC.reset_chunks_left, h]

/-- The state after any sequence of chunk-added calls on a fresh collector, in
closed form. -/
theorem added_chunks_closed {ε : Type} (m : Memory ε) (counts : List Int) :
    added_chunks m counts =
      (some { m with immix_chunks := m.immix_chunks + counts.length },
       { chunks_left_ := 10 - ((counts.length % 10 : Nat) : Int),
         chunks_before_collection_ := 10,
         diagnostic_ := ⟨0, 0, 0, 0, 0, ⟨0, 0⟩, 0⟩ }) := by
  induction counts using List.reverseRecOn with
  | nil => rfl
  | append_singleton l k ih =>
    have hstep : added_chunks m (l ++ [k]) =
        ObjectDescriber.added_chunk (added_chunks m l).1 (added_chunks m l).2 k := by
      simp [added_chunks, List.foldl_append]
    rw [hstep, ih, added_chunk_step]
    simp only [List.length_append, List.length_singleton, Prod.mk.injEq, Option.some.injEq]
    refine ⟨by simp [Nat.add_assoc], ?_⟩
    simp only [ImmixGC.mk.injEq, and_true, true_and]
    split <;> omega

/-- C7. Chunk-added back-pressure counter: on a freshly constructed collector
with a memory manager attached, after any sequence of chunk-added calls the
metrics counter has grown by the number of calls and the chunks-remaining
counter is `10 - (calls mod 10)`, so it lies between 1 and the budget 10 and is
back at 10 after every 10th call; and one more call adds one to the metrics
counter and takes the chunks-remaining counter down by one, resetting it to 10
exactly when the decremented value is zero. -/
theorem chunks_left_counter {ε : Type} (m : Memory ε) (counts : List Int) :
    (added_chunks m counts).1 =
        some { m with immix_chunks := m.immix_chunks + counts.length } ∧
    (added_chunks m counts).2.chunks_left_ = 10 - ((counts.length % 10 : Nat) : Int) ∧
    1 ≤ (added_chunks m counts).2.chunks_left_ ∧
    (added_chunks m counts).2.chunks_left_ ≤ 10 ∧
    (counts.length % 10 = 0 → (added_chunks m counts).2.chunks_left_ = 10) ∧
    (∀ k : Int,
      (ObjectDescriber.added_chunk (added_chunks m counts).1 (added_chunks m counts).2 k).1 =
          some { m with immix_chunks := m.immix_chunks + counts.length + 1 } ∧
      (ObjectDescriber.added_chunk (added_chunks m counts).1 (added_chunks m counts).2 k).2 =
          { (added_chunks m counts).2 with chunks_left_ :=
              if (added_chunks m counts).2.chunks_left_ - 1 = 0 then 10
              else (added_chunks m counts).2.chunks_left_ - 1 }) := by
  rw [added_chunks_closed]
  refine ⟨rfl, rfl, ?_, ?_, ?_, ?_⟩
  · show (1 : Int) ≤ 10 - ((counts.length % 10 : Nat) : Int)
    omega
  · show (10 : Int) - ((counts.length % 10 : Nat) : Int) ≤ 10
    omega
  · intro h
    show (10 : Int) - ((counts.length % 10 : Nat) : Int) = 10
    omega
  · intro k
    rw [added_chunk_step]
    refine ⟨rfl, ?_⟩
    simp only [ImmixGC.mk.injEq, and_true, true_and]
    split <;> split <;> omega

/-- Witness for C7: ten calls bring the counter back to the budget. -/
theorem chunks_left_counter_witness :
    (added_chunks demo_memory [1, 1, 1, 1, 1, 1, 1, 1, 1, 1]).2.chunks_left_ = 10 :=
  (chunks_left_counter demo_memory [1, 1, 1, 1, 1, 1, 1, 1, 1, 1]).2.2.2.2.1 (by decide)

/-- What the counting loop of `sweep` leaves in the snapshot: every counter has
grown by the sum over the blocks; nothing is reset. -/
theorem sweep_count_adds (cBlockSize : Nat) (blocks : List Block) (d : diagnostics.Immix) :
    ImmixGC.sweep_count cBlockSize blocks d =
      { d with holes := d.holes + (blocks.map Block.holes).sum,
               objects := d.objects + (blocks.map Block.objects).sum,
               bytes := d.bytes + (blocks.map Block.object_bytes).sum,
               total_bytes := d.total_bytes + cBlockSize * blocks.length } := by
  induction blocks generalizing d with
  | nil => simp [ImmixGC.sweep_count]
  | cons b rest ih =>
    simp only [ImmixGC.sweep_count, ih, List.map_cons, List.sum_cons, List.length_cons]
    simp only [diagnostics.Immix.mk.injEq, and_true, true_and]
    refine ⟨?_, ?_, ?_, ?_⟩ <;> ring

/-- The snapshot after `sweep` when diagnostics reporting is disabled: the
counts of this sweep are added to the counts the snapshot already held. -/
theorem sweep_accumulates {ε : Type} (rt : Collaborators ε) (self : ImmixGC)
    (memory_ : Memory ε)
    (hoff : rt.diagnostics_memory_enabled (rt.sweep_blocks (rt.copy_marks memory_)) = false) :
    (ImmixGC.sweep rt self memory_).1.diagnostic_.holes =
      self.diagnostic_.holes +
        (((rt.chunks (rt.sweep_blocks (rt.copy_marks memory_))).flatten).map Block.holes).sum ∧
    (ImmixGC.sweep rt self memory_).1.diagnostic_.bytes =
      self.diagnostic_.bytes +
        (((rt.chunks (rt.sweep_blocks (rt.copy_marks memory_))).flatten).map
          Block.object_bytes).sum := by
  simp [ImmixGC.sweep, hoff, sweep_count_adds]

/-- C8. Two sweeps of one collector over a region of one chunk with one block
(1 hole, 2 objects, 100 live bytes, block size 32768): the first snapshot holds
the sums over the blocks, the second holds twice the sums, and the allocator is
restarted the second time with 65336 free bytes although the whole region has
32768 bytes. -/
theorem sweep_twice_accumulates :
    demo_swept_once.1.diagnostic_ = ⟨1, 1, 2, 100, 32768, ⟨100, 32768⟩, 1⟩ ∧
    demo_swept_twice.1.diagnostic_ = ⟨1, 2, 4, 200, 65536, ⟨200, 65536⟩, 2⟩ ∧
    ((demo_rt.chunks demo_swept_twice.2).flatten.map Block.holes).sum = 1 ∧
    ((demo_rt.chunks demo_swept_twice.2).flatten.map Block.objects).sum = 2 ∧
    ((demo_rt.chunks demo_swept_twice.2).flatten.map Block.object_bytes).sum = 100 ∧
    demo_rt.cBlockSize * (demo_rt.chunks demo_swept_twice.2).flatten.length = 32768 ∧
    demo_swept_twice.2.ext.restarts =
      [(⟨100, 32768⟩, 32668), (⟨200, 65536⟩, 65336)] ∧
    demo_swept_twice.1.diagnostic_.holes ≠
      ((demo_rt.chunks demo_swept_twice.2).flatten.map Block.holes).sum := by
  refine ⟨?_, ?_, ?_, ?_, ?_, ?_, ?_, ?_⟩ <;> decide

/-- The inner loop of `deallocate_headers` in closed form. -/
theorem deallocate_slots_spec {T : Type} (marked_p : T → Nat → Bool) (clear : T → T)
    (mark : Nat) (slots : List T) (chunk_mark : Bool) (objects : Nat) :
    InflatedHeaders.deallocate_slots marked_p clear mark slots chunk_mark objects =
      (slots.map (retained_or_cleared marked_p clear mark),
       chunk_mark || slots.any (fun h => marked_p h mark),
       objects + slots.countP (fun h => marked_p h mark)) := by
  induction slots generalizing chunk_mark objects with
  | nil => simp [InflatedHeaders.deallocate_slots]
  | cons h rest ih =>
    by_cases hm : marked_p h mark = true
    · simp [InflatedHeaders.deallocate_slots, ih, hm, retained_or_cleared]
      omega
    · simp [InflatedHeaders.deallocate_slots, ih, hm, retained_or_cleared]

/-- The outer loop of `deallocate_headers` in closed form. -/
theorem deallocate_chunks_spec {T : Type} (marked_p : T → Nat → Bool) (clear : T → T)
    (mark : Nat) (chunks : List (List T)) (objects : Nat) :
    InflatedHeaders.deallocate_chunks marked_p clear mark chunks objects =
      (chunks.map (fun chunk => chunk.map (retained_or_cleared marked_p clear mark)),
       chunks.map (fun chunk => chunk.any (fun h => marked_p h mark)),
       objects + (chunks.map (fun chunk => chunk.countP (fun h => marked_p h mark))).sum) := by
  induction chunks generalizing objects with
  | nil => simp [InflatedHeaders.deallocate_chunks]
  | cons chunk rest ih =>
    simp [InflatedHeaders.deallocate_chunks, deallocate_slots_spec, ih]
    omega

/-- C4. Header/object liveness correlation: for every table and every mark
generation, `deallocate_headers` leaves in each slot of each chunk the header
itself when it is marked under that generation and the cleared header
otherwise, flags a chunk exactly when one of its slots is marked, counts the
marked slots, and hands that table and those flags to `rebuild_freelist`.  On
10 allocated headers of which 3 have marked owners, 3 are retained and 7 are
cleared. -/
theorem deallocate_headers_liveness {T : Type} (marked_p : T → Nat → Bool) (clear : T → T)
    (rebuild_freelist : Allocator T → List Bool → Allocator T) (sizeof_header : Nat)
    (self : InflatedHeaders T) (mark : Nat) :
    InflatedHeaders.deallocate_headers marked_p clear rebuild_freelist sizeof_header self mark =
      { allocator_ :=
          rebuild_freelist
            { self.allocator_ with
              chunks_ := self.allocator_.chunks_.map
                (fun chunk => chunk.map (retained_or_cleared marked_p clear mark)) }
            (self.allocator_.chunks_.map (fun chunk => chunk.any (fun h => marked_p h mark))),
        diagnostic_ :=
          { self.diagnostic_ with
            objects := (self.allocator_.chunks_.map
              (fun chunk => chunk.countP (fun h => marked_p h mark))).sum,
            bytes := (rebuild_freelist
              { self.allocator_ with
                chunks_ := self.allocator_.chunks_.map
                  (fun chunk => chunk.map (retained_or_cleared marked_p clear mark)) }
              (self.allocator_.chunks_.map
                (fun chunk => chunk.any (fun h => marked_p h mark)))).in_use_ *
              sizeof_header } } ∧
    (∀ header, marked_p header mark = true →
      retained_or_cleared marked_p clear mark header = header) ∧
    (∀ header, marked_p header mark = false →
      retained_or_cleared marked_p clear mark header = clear header) ∧
    (∀ chunk : List T, chunk.any (fun h => marked_p h mark) = true ↔
      ∃ header ∈ chunk, marked_p header mark = true) ∧
    (InflatedHeaders.deallocate_headers InflatedHeader.marked_p InflatedHeader.clear
        (fun a _ => a) 16 demo_headers 1).allocator_.chunks_ =
      [[⟨0, 0⟩, ⟨16, 1⟩, ⟨0, 0⟩, ⟨0, 0⟩, ⟨40, 1⟩, ⟨0, 0⟩, ⟨0, 0⟩, ⟨0, 0⟩, ⟨72, 1⟩, ⟨0, 0⟩]] ∧
    (InflatedHeaders.deallocate_headers InflatedHeader.marked_p InflatedHeader.clear
        (fun a _ => a) 16 demo_headers 1).diagnostic_.objects = 3 := by
  refine ⟨?_, ?_, ?_, ?_, ?_, ?_⟩
  · simp [InflatedHeaders.deallocate_headers, deallocate_chunks_spec]
  · intro header h
    simp [retained_or_cleared, h]
  · intro header h
    simp [retained_or_cleared, h]
  · intro chunk
    simp [List.any_eq_true]
  · decide
  · decide

/-- Witness for C4: a marked header is kept, an unmarked one is cleared. -/
theorem deallocate_headers_liveness_witness :
    retained_or_cleared InflatedHeader.marked_p InflatedHeader.clear 1 ⟨16, 1⟩ = ⟨16, 1⟩ ∧
    retained_or_cleared InflatedHeader.marked_p InflatedHeader.clear 1 ⟨8, 2⟩ =
      InflatedHeader.clear ⟨8, 2⟩ :=
  ⟨(deallocate_headers_liveness InflatedHeader.marked_p InflatedHeader.clear (fun a _ => a)
      16 demo_headers 1).2.1 ⟨16, 1⟩ rfl,
   (deallocate_headers_liveness InflatedHeader.marked_p InflatedHeader.clear (fun a _ => a)
      16 demo_headers 1).2.2.1 ⟨8, 2⟩ rfl⟩

theorem marks_from_refl {ε : Type} (c : Cycle ε) : c.marks_from c :=
  ⟨[], by simp, by simp⟩

theorem marks_from_trans {ε : Type} {c c1 c2 : Cycle ε} (h1 : c.marks_from c1)
    (h2 : c1.marks_from c2) : c.marks_from c2 := by
  obtain ⟨e1, hl1, hm1⟩ := h1
  obtain ⟨e2, hl2, hm2⟩ := h2
  refine ⟨e1 ++ e2, by rw [hl2, hl1, List.append_assoc], ?_⟩
  intro e he
  rcases List.mem_append.mp he with h | h
  · exact hm1 e h
  · exact hm2 e h

theorem marks_from_snoc {ε : Type} (c : Cycle ε) (m : Memory ε) (e : Event)
    (he : e.marking = true) : c.marks_from { memory_ := m, log := c.log ++ [e] } :=
  ⟨[e], rfl, by simpa using he⟩

theorem saw_object_marks {ε : Type} (rt : Collaborators ε) (c c1 : Cycle ε)
    (obj r : Address) (h : ImmixGC.saw_object rt c obj = .ok (r, c1)) : c.marks_from c1 := by
  unfold ImmixGC.saw_object at h
  by_cases href : (!rt.REFERENCE_P obj) = true
  · rw [if_pos href] at h
    cases h
    exact marks_from_refl c
  · rw [if_neg href] at h
    rcases heng : rt.gc_mark_address c.memory_ obj with ⟨copy, m1⟩
    rw [heng] at h
    simp only at h
    by_cases hrel : copy ≠ null ∧ copy ≠ obj
    · rw [if_pos hrel] at h
      cases hl : load m1.heap obj with
      | error e => rw [hl] at h; cases h
      | ok o =>
        rw [hl] at h
        cases h
        exact marks_from_snoc c _ _ rfl
    · rw [if_neg hrel] at h
      cases h
      exact marks_from_snoc c _ _ rfl

theorem visit_root_marks {ε : Type} (rt : Collaborators ε) (c c1 : Cycle ε)
    (root r : Address) (h : ImmixGC.visit_root rt c root = .ok (r, c1)) :
    c.marks_from c1 := by
  unfold ImmixGC.visit_root at h
  cases hs : ImmixGC.saw_object rt c root with
  | error e => rw [hs] at h; cases h
  | ok p =>
    obtain ⟨fwd, c2⟩ := p
    rw [hs] at h
    simp only at h
    have hm := saw_object_marks rt c c2 root fwd hs
    by_cases hf : fwd ≠ null
    · rw [if_pos hf] at h; cases h; exact hm
    · rw [if_neg hf] at h; cases h; exact hm

theorem scan_roots_marks {ε : Type} (rt : Collaborators ε) (roots : List Address) :
    ∀ (c c1 : Cycle ε) (roots1 : List Address),
      ImmixGC.scan_roots rt roots c = .ok (roots1, c1) → c.marks_from c1 := by
  induction roots with
  | nil =>
    intro c c1 roots1 h
    simp only [ImmixGC.scan_roots, Except.ok.injEq, Prod.mk.injEq] at h
    rw [← h.2]
    exact marks_from_refl c
  | cons root rest ih =>
    intro c c1 roots1 h
    unfold ImmixGC.scan_roots at h
    cases hv : ImmixGC.visit_root rt c root with
    | error e => rw [hv] at h; cases h
    | ok p =>
      obtain ⟨root1, c2⟩ := p
      rw [hv] at h
      simp only at h
      cases hr : ImmixGC.scan_roots rt rest c2 with
      | error e => rw [hr] at h; cases h
      | ok q =>
        obtain ⟨rest1, c3⟩ := q
        rw [hr] at h
        cases h
        exact marks_from_trans (visit_root_marks rt c c2 root root1 hv) (ih _ _ _ hr)

theorem scan_threads_marks {ε : Type} (rt : Collaborators ε) (threads : List Nat) :
    ∀ c : Cycle ε, c.marks_from (ImmixGC.scan_threads rt threads c) := by
  induction threads with
  | nil => intro c; exact marks_from_refl c
  | cons t rest ih =>
    intro c
    unfold ImmixGC.scan_threads
    exact marks_from_trans (marks_from_snoc c _ (Event.scan t) rfl) (ih _)

theorem visit_handle_marks {ε : Type} (rt : Collaborators ε) (hs hs1 : Handles)
    (c c1 : Cycle ε) (hdl : Nat) (h : ImmixGC.visit_handle rt hs c hdl = .ok (hs1, c1)) :
    c.marks_from c1 := by
  unfold ImmixGC.visit_handle at h
  by_cases hv : ((hs hdl).in_use_p && !(hs hdl).weak_p) = true
  · rw [if_pos hv] at h
    cases hs' : ImmixGC.saw_object rt c (hs hdl).object with
    | error e => rw [hs'] at h; cases h
    | ok p =>
      obtain ⟨fwd, c2⟩ := p
      rw [hs'] at h
      simp only at h
      have hm := saw_object_marks rt c c2 _ fwd hs'
      by_cases hf : fwd ≠ null
      · rw [if_pos hf] at h; cases h; exact hm
      · rw [if_neg hf] at h; cases h; exact hm
  · rw [if_neg hv] at h
    cases h
    exact marks_from_refl c

theorem scan_handles_marks {ε : Type} (rt : Collaborators ε) (slots : List Nat) :
    ∀ (hs hs1 : Handles) (c c1 : Cycle ε),
      ImmixGC.scan_handles rt slots hs c = .ok (hs1, c1) → c.marks_from c1 := by
  induction slots with
  | nil =>
    intro hs hs1 c c1 h
    simp only [ImmixGC.scan_handles, Except.ok.injEq, Prod.mk.injEq] at h
    rw [← h.2]
    exact marks_from_refl c
  | cons hdl rest ih =>
    intro hs hs1 c c1 h
    unfold ImmixGC.scan_handles at h
    cases hv : ImmixGC.visit_handle rt hs c hdl with
    | error e => rw [hv] at h; cases h
    | ok p =>
      obtain ⟨hs2, c2⟩ := p
      rw [hv] at h
      simp only at h
      exact marks_from_trans (visit_handle_marks rt hs hs2 c c2 hdl hv) (ih hs2 hs1 c2 c1 h)

theorem visit_global_handle_marks {ε : Type} (rt : Collaborators ε) (hs hs1 : Handles)
    (c c1 : Cycle ε) (hdl : Nat)
    (h : ImmixGC.visit_global_handle rt hs c hdl = .ok (hs1, c1)) : c.marks_from c1 := by
  unfold ImmixGC.visit_global_handle at h
  by_cases hnz : hdl ≠ 0
  · rw [if_pos hnz] at h
    by_cases href : (!rt.REFERENCE_P hdl) = true
    · rw [if_pos href] at h; cases h; exact marks_from_refl c
    · rw [if_neg href] at h
      by_cases hvalid : (hs hdl).valid_p = true
      · rw [if_pos hvalid] at h
        simp only at h
        by_cases hobj : (hs hdl).object ≠ null ∧ rt.REFERENCE_P (hs hdl).object = true
        · rw [if_pos hobj] at h
          cases hs' : ImmixGC.saw_object rt c (hs hdl).object with
          | error e => rw [hs'] at h; cases h
          | ok p =>
            obtain ⟨fwd, c2⟩ := p
            rw [hs'] at h
            simp only at h
            have hm := saw_object_marks rt c c2 _ fwd hs'
            by_cases hf : fwd ≠ null
            · rw [if_pos hf] at h; cases h; exact hm
            · rw [if_neg hf] at h; cases h; exact hm
        · rw [if_neg hobj] at h; cases h; exact marks_from_refl c
      · rw [if_neg hvalid] at h
        cases h
        exact ⟨[Event.bad_handle hdl], rfl, by simp [Event.marking]⟩
  · rw [if_neg hnz] at h
    cases h
    exact marks_from_refl c

theorem scan_global_handles_marks {ε : Type} (rt : Collaborators ε) (gh : List Nat) :
    ∀ (hs hs1 : Handles) (c c1 : Cycle ε),
      ImmixGC.scan_global_handles rt gh hs c = .ok (hs1, c1) → c.marks_from c1 := by
  induction gh with
  | nil =>
    intro hs hs1 c c1 h
    simp only [ImmixGC.scan_global_handles, Except.ok.injEq, Prod.mk.injEq] at h
    rw [← h.2]
    exact marks_from_refl c
  | cons hdl rest ih =>
    intro hs hs1 c c1 h
    unfold ImmixGC.scan_global_handles at h
    cases hv : ImmixGC.visit_global_handle rt hs c hdl with
    | error e => rw [hv] at h; cases h
    | ok p =>
      obtain ⟨hs2, c2⟩ := p
      rw [hv] at h
      simp only at h
      exact marks_from_trans (visit_global_handle_marks rt hs hs2 c c2 hdl hv)
        (ih hs2 hs1 c2 c1 h)

/-- `collect_scan` makes marking calls only and keeps the thread list. -/
theorem collect_scan_marks {ε : Type} (rt : Collaborators ε) (data data1 : GCData)
    (c c1 : Cycle ε) (h : ImmixGC.collect_scan rt data c = .ok (data1, c1)) :
    c.marks_from c1 ∧ data1.threads = data.threads ∧
      data1.handle_slots = data.handle_slots := by
  unfold ImmixGC.collect_scan at h
  cases hr : ImmixGC.scan_roots rt data.roots c with
  | error e => rw [hr] at h; cases h
  | ok p =>
    obtain ⟨roots1, c2⟩ := p
    rw [hr] at h
    simp only at h
    have m1 := scan_roots_marks rt data.roots c c2 roots1 hr
    have m2 := scan_threads_marks rt data.threads c2
    cases hh : ImmixGC.scan_handles rt data.handle_slots data.handles
        (ImmixGC.scan_threads rt data.threads c2) with
    | error e => rw [hh] at h; cases h
    | ok q =>
      obtain ⟨hs3, c3⟩ := q
      rw [hh] at h
      simp only at h
      have m3 := scan_handles_marks rt _ _ _ _ _ hh
      cases hg : data.global_handle_locations with
      | none =>
        rw [hg] at h
        cases h
        exact ⟨marks_from_trans m1 (marks_from_trans m2 m3), rfl, rfl⟩
      | some gh =>
        rw [hg] at h
        simp only at h
        cases hgs : ImmixGC.scan_global_handles rt gh hs3 c3 with
        | error e => rw [hgs] at h; cases h
        | ok r =>
          obtain ⟨hs4, c4⟩ := r
          rw [hgs] at h
          cases h
          have m4 := scan_global_handles_marks rt gh _ _ _ _ hgs
          exact ⟨marks_from_trans m1 (marks_from_trans m2 (marks_from_trans m3 m4)), rfl, rfl⟩

theorem process_mark_stack_marks {ε : Type} (rt : Collaborators ε) (c : Cycle ε) :
    c.marks_from (ImmixGC.process_mark_stack rt c).2 ∧
    (ImmixGC.process_mark_stack rt c).1 = (rt.process_mark_stack c.memory_).1 ∧
    (ImmixGC.process_mark_stack rt c).2 =
      { memory_ := (rt.process_mark_stack c.memory_).2,
        log := c.log ++ [Event.process_mark_stack] } := by
  refine ⟨?_, rfl, rfl⟩
  exact marks_from_snoc c _ Event.process_mark_stack rfl

theorem visit_marked_marks {ε : Type} (rt : Collaborators ε) (c c1 : Cycle ε)
    (obj r : Address) (h : ImmixGC.visit_marked rt c obj = .ok (r, c1)) :
    c.marks_from c1 := by
  unfold ImmixGC.visit_marked at h
  by_cases hobj : obj ≠ null
  · rw [if_pos hobj] at h
    cases hs : ImmixGC.saw_object rt c obj with
    | error e => rw [hs] at h; cases h
    | ok p =>
      obtain ⟨fwd, c2⟩ := p
      rw [hs] at h
      simp only at h
      have hm := saw_object_marks rt c c2 obj fwd hs
      by_cases hf : fwd ≠ null
      · rw [if_pos hf] at h; cases h; exact hm
      · rw [if_neg hf] at h; cases h; exact hm
  · rw [if_neg hobj] at h
    cases h
    exact marks_from_refl c

theorem scan_marked_set_marks {ε : Type} (rt : Collaborators ε) (marked_set : List Address) :
    ∀ (c c1 : Cycle ε) (set1 : List Address),
      ImmixGC.scan_marked_set rt marked_set c = .ok (set1, c1) → c.marks_from c1 := by
  induction marked_set with
  | nil =>
    intro c c1 set1 h
    simp only [ImmixGC.scan_marked_set, Except.ok.injEq, Prod.mk.injEq] at h
    rw [← h.2]
    exact marks_from_refl c
  | cons obj rest ih =>
    intro c c1 set1 h
    unfold ImmixGC.scan_marked_set at h
    cases hv : ImmixGC.visit_marked rt c obj with
    | error e => rw [hv] at h; cases h
    | ok p =>
      obtain ⟨obj1, c2⟩ := p
      rw [hv] at h
      simp only at h
      cases hr : ImmixGC.scan_marked_set rt rest c2 with
      | error e => rw [hr] at h; cases h
      | ok q =>
        obtain ⟨rest1, c3⟩ := q
        rw [hr] at h
        cases h
        exact marks_from_trans (visit_marked_marks rt c c2 obj obj1 hv) (ih _ _ _ hr)

theorem rescan_rdata_marks {ε : Type} (rt : Collaborators ε) (hs : Handles)
    (slots : List Nat) :
    ∀ c c1 : Cycle ε, ImmixGC.rescan_rdata rt hs slots c = .ok c1 → c.marks_from c1 := by
  induction slots with
  | nil =>
    intro c c1 h
    simp only [ImmixGC.rescan_rdata, Except.ok.injEq] at h
    rw [← h]
    exact marks_from_refl c
  | cons i rest ih =>
    intro c c1 h
    unfold ImmixGC.rescan_rdata at h
    simp only at h
    by_cases hin : (!(hs i).in_use_p) = true
    · rw [if_pos hin] at h
      exact ih c c1 h
    · rw [if_neg hin] at h
      by_cases hrd : (hs i).is_rdata = true
      · rw [if_pos hrd] at h
        cases hl : load c.memory_.heap (hs i).object with
        | error e => rw [hl] at h; cases h
        | ok obj =>
          rw [hl] at h
          simp only at h
          by_cases hm : obj.marked_p c.memory_.mark = true
          · rw [if_pos hm] at h
            exact marks_from_trans
              (marks_from_snoc c _ (Event.scan_object (hs i).object) rfl) (ih _ c1 h)
          · rw [if_neg hm] at h
            exact ih c c1 h
      · rw [if_neg hrd] at h
        exact ih c c1 h

/-- When the `do ... while` loop of `collect_finish` returns, it made marking
calls only, and the last of them is a drain of the mark stack that reported no
more work. -/
theorem rescan_rdata_loop_marks {ε : Type} (rt : Collaborators ε) (data : GCData)
    (fuel : Nat) :
    ∀ c c5 : Cycle ε, ImmixGC.rescan_rdata_loop rt data fuel c = .ok c5 →
      ∃ c4 : Cycle ε, c.marks_from c4 ∧ (rt.process_mark_stack c4.memory_).1 = false ∧
        c5 = { memory_ := (rt.process_mark_stack c4.memory_).2,
               log := c4.log ++ [Event.process_mark_stack] } := by
  induction fuel with
  | zero =>
    intro c c5 h
    simp [ImmixGC.rescan_rdata_loop] at h
  | succ n ih =>
    intro c c5 h
    unfold ImmixGC.rescan_rdata_loop at h
    cases hr : ImmixGC.rescan_rdata rt data.handles data.handle_slots c with
    | error e => rw [hr] at h; cases h
    | ok c1 =>
      rw [hr] at h
      simp only at h
      have m1 := rescan_rdata_marks rt _ _ c c1 hr
      obtain ⟨m2, hfst, hsnd⟩ := process_mark_stack_marks rt c1
      rcases hp : ImmixGC.process_mark_stack rt c1 with ⟨more, c2⟩
      rw [hp] at h m2 hfst hsnd
      simp only at h m2 hfst hsnd
      by_cases hmore : more = true
      · rw [if_pos hmore] at h
        obtain ⟨c4, hm4, hlast, heq⟩ := ih c2 c5 h
        exact ⟨c4, marks_from_trans m1 (marks_from_trans m2 hm4), hlast, heq⟩
      · rw [if_neg hmore] at h
        cases h
        refine ⟨c1, m1, ?_, hsnd⟩
        rw [← hfst]
        simpa using hmore

theorem clean_locked_log {ε : Type} (rt : Collaborators ε) (threads : List Nat) :
    ∀ c : Cycle ε, (ImmixGC.clean_locked rt threads c).log =
      c.log ++ threads.map Event.clean_locked_objects := by
  induction threads with
  | nil => intro c; simp [ImmixGC.clean_locked]
  | cons t rest ih =>
    intro c
    simp [ImmixGC.clean_locked, ih]

/-! ### `collect_finish` returns -/

theorem saw_object_returns {ε : Type} (rt : Collaborators ε)
    (hnull : ∀ m, (rt.gc_mark_address m null).1 = null) (c : Cycle ε) (obj : Address) :
    ∃ r c1, ImmixGC.saw_object rt c obj = .ok (r, c1) := by
  unfold ImmixGC.saw_object
  by_cases href : (!rt.REFERENCE_P obj) = true
  · rw [if_pos href]
    exact ⟨_, _, rfl⟩
  · rw [if_neg href]
    rcases heng : rt.gc_mark_address c.memory_ obj with ⟨copy, m1⟩
    simp only
    by_cases hrel : copy ≠ null ∧ copy ≠ obj
    · rw [if_pos hrel]
      have hobj : obj ≠ null := by
        intro h0
        rw [h0] at heng
        have h1 := hnull c.memory_
        rw [heng] at h1
        exact hrel.1 h1
      simp [load, hobj]
    · rw [if_neg hrel]
      exact ⟨_, _, rfl⟩

theorem rdata_ready_update (hs : Handles) (slots : List Nat) (hdl : Nat) (fwd : Address)
    (hf : fwd ≠ null) (h : rdata_ready hs slots) :
    rdata_ready (Function.update hs hdl ((hs hdl).set_object fwd)) slots := by
  intro i hi hin hrd
  by_cases hx : i = hdl
  · subst hx
    simpa [Handle.set_object] using hf
  · rw [Function.update_noteq hx] at hin hrd ⊢
    exact h i hi hin hrd

theorem visit_root_returns {ε : Type} (rt : Collaborators ε)
    (hnull : ∀ m, (rt.gc_mark_address m null).1 = null) (c : Cycle ε) (root : Address) :
    ∃ r c1, ImmixGC.visit_root rt c root = .ok (r, c1) := by
  obtain ⟨fwd, c1, hs⟩ := saw_object_returns rt hnull c root
  unfold ImmixGC.visit_root
  rw [hs]
  simp only
  by_cases hf : fwd ≠ null
  · rw [if_pos hf]; exact ⟨_, _, rfl⟩
  · rw [if_neg hf]; exact ⟨_, _, rfl⟩

theorem scan_roots_returns {ε : Type} (rt : Collaborators ε)
    (hnull : ∀ m, (rt.gc_mark_address m null).1 = null) (roots : List Address) :
    ∀ c : Cycle ε, ∃ roots1 c1, ImmixGC.scan_roots rt roots c = .ok (roots1, c1) := by
  induction roots with
  | nil => intro c; exact ⟨_, _, rfl⟩
  | cons root rest ih =>
    intro c
    obtain ⟨root1, c1, hv⟩ := visit_root_returns rt hnull c root
    obtain ⟨rest1, c2, hr⟩ := ih c1
    exact ⟨root1 :: rest1, c2, by simp [ImmixGC.scan_roots, hv, hr]⟩

theorem visit_handle_returns {ε : Type} (rt : Collaborators ε)
    (hnull : ∀ m, (rt.gc_mark_address m null).1 = null) (hs : Handles) (c : Cycle ε)
    (hdl : Nat) (slots : List Nat) (hready : rdata_ready hs slots) :
    ∃ hs1 c1, ImmixGC.visit_handle rt hs c hdl = .ok (hs1, c1) ∧ rdata_ready hs1 slots := by
  unfold ImmixGC.visit_handle
  by_cases hv : ((hs hdl).in_use_p && !(hs hdl).weak_p) = true
  · rw [if_pos hv]
    obtain ⟨fwd, c1, hs'⟩ := saw_object_returns rt hnull c (hs hdl).object
    rw [hs']
    simp only
    by_cases hf : fwd ≠ null
    · rw [if_pos hf]
      exact ⟨_, _, rfl, rdata_ready_update hs slots hdl fwd hf hready⟩
    · rw [if_neg hf]
      exact ⟨_, _, rfl, hready⟩
  · rw [if_neg hv]
    exact ⟨_, _, rfl, hready⟩

theorem scan_handles_returns {ε : Type} (rt : Collaborators ε)
    (hnull : ∀ m, (rt.gc_mark_address m null).1 = null) (slots : List Nat)
    (walk : List Nat) :
    ∀ (hs : Handles) (c : Cycle ε), rdata_ready hs slots →
      ∃ hs1 c1, ImmixGC.scan_handles rt walk hs c = .ok (hs1, c1) ∧
        rdata_ready hs1 slots := by
  induction walk with
  | nil => intro hs c h; exact ⟨_, _, rfl, h⟩
  | cons hdl rest ih =>
    intro hs c h
    obtain ⟨hs1, c1, hv, h1⟩ := visit_handle_returns rt hnull hs c hdl slots h
    obtain ⟨hs2, c2, hr, h2⟩ := ih hs1 c1 h1
    exact ⟨hs2, c2, by simp [ImmixGC.scan_handles, hv, hr], h2⟩

theorem visit_global_handle_returns {ε : Type} (rt : Collaborators ε)
    (hnull : ∀ m, (rt.gc_mark_address m null).1 = null) (hs : Handles) (c : Cycle ε)
    (hdl : Nat) (slots : List Nat) (hready : rdata_ready hs slots) :
    ∃ hs1 c1, ImmixGC.visit_global_handle rt hs c hdl = .ok (hs1, c1) ∧
      rdata_ready hs1 slots := by
  unfold ImmixGC.visit_global_handle
  by_cases hnz : hdl ≠ 0
  · rw [if_pos hnz]
    by_cases href : (!rt.REFERENCE_P hdl) = true
    · rw [if_pos href]
      exact ⟨_, _, rfl, hready⟩
    · rw [if_neg href]
      by_cases hvalid : (hs hdl).valid_p = true
      · rw [if_pos hvalid]
        simp only
        by_cases hobj : (hs hdl).object ≠ null ∧ rt.REFERENCE_P (hs hdl).object = true
        · rw [if_pos hobj]
          obtain ⟨fwd, c1, hs'⟩ := saw_object_returns rt hnull c (hs hdl).object
          rw [hs']
          simp only
          by_cases hf : fwd ≠ null
          · rw [if_pos hf]
            exact ⟨_, _, rfl, rdata_ready_update hs slots hdl fwd hf hready⟩
          · rw [if_neg hf]
            exact ⟨_, _, rfl, hready⟩
        · rw [if_neg hobj]
          exact ⟨_, _, rfl, hready⟩
      · rw [if_neg hvalid]
        exact ⟨_, _, rfl, hready⟩
  · rw [if_neg hnz]
    exact ⟨_, _, rfl, hready⟩

theorem scan_global_handles_returns {ε : Type} (rt : Collaborators ε)
    (hnull : ∀ m, (rt.gc_mark_address m null).1 = null) (slots : List Nat)
    (gh : List Nat) :
    ∀ (hs : Handles) (c : Cycle ε), rdata_ready hs slots →
      ∃ hs1 c1, ImmixGC.scan_global_handles rt gh hs c = .ok (hs1, c1) ∧
        rdata_ready hs1 slots := by
  induction gh with
  | nil => intro hs c h; exact ⟨_, _, rfl, h⟩
  | cons hdl rest ih =>
    intro hs c h
    obtain ⟨hs1, c1, hv, h1⟩ := visit_global_handle_returns rt hnull hs c hdl slots h
    obtain ⟨hs2, c2, hr, h2⟩ := ih hs1 c1 h1
    exact ⟨hs2, c2, by simp [ImmixGC.scan_global_handles, hv, hr], h2⟩

/-- `collect_scan` returns when the engine does not relocate the null object,
and it keeps every in-use native-data handle pointing at an object. -/
theorem collect_scan_returns {ε : Type} (rt : Collaborators ε)
    (hnull : ∀ m, (rt.gc_mark_address m null).1 = null) (data : GCData) (c : Cycle ε)
    (hready : rdata_ready data.handles data.handle_slots) :
    ∃ data1 c1, ImmixGC.collect_scan rt data c = .ok (data1, c1) ∧
      rdata_ready data1.handles data1.handle_slots := by
  obtain ⟨roots1, c1, hr⟩ := scan_roots_returns rt hnull data.roots c
  obtain ⟨hs3, c3, hh, h3⟩ := scan_handles_returns rt hnull data.handle_slots
    data.handle_slots data.handles (ImmixGC.scan_threads rt data.threads c1) hready
  cases hg : data.global_handle_locations with
  | none =>
    exact ⟨{ data with roots := roots1, handles := hs3 }, c3,
      by simp [ImmixGC.collect_scan, hr, hh, hg], h3⟩
  | some gh =>
    obtain ⟨hs4, c4, hgs, h4⟩ :=
      scan_global_handles_returns rt hnull data.handle_slots gh hs3 c3 h3
    exact ⟨{ data with roots := roots1, handles := hs4 }, c4,
      by simp [ImmixGC.collect_scan, hr, hh, hg, hgs], h4⟩

theorem scan_marked_set_returns {ε : Type} (rt : Collaborators ε)
    (hnull : ∀ m, (rt.gc_mark_address m null).1 = null) (marked_set : List Address) :
    ∀ c : Cycle ε, ∃ set1 c1, ImmixGC.scan_marked_set rt marked_set c = .ok (set1, c1) := by
  induction marked_set with
  | nil => intro c; exact ⟨_, _, rfl⟩
  | cons obj rest ih =>
    intro c
    have hv : ∃ obj1 c1, ImmixGC.visit_marked rt c obj = .ok (obj1, c1) := by
      unfold ImmixGC.visit_marked
      by_cases hobj : obj ≠ null
      · rw [if_pos hobj]
        obtain ⟨fwd, c1, hs⟩ := saw_object_returns rt hnull c obj
        rw [hs]
        simp only
        by_cases hf : fwd ≠ null
        · rw [if_pos hf]; exact ⟨_, _, rfl⟩
        · rw [if_neg hf]; exact ⟨_, _, rfl⟩
      · rw [if_neg hobj]; exact ⟨_, _, rfl⟩
    obtain ⟨obj1, c1, hv⟩ := hv
    obtain ⟨rest1, c2, hr⟩ := ih c1
    exact ⟨obj1 :: rest1, c2, by simp [ImmixGC.scan_marked_set, hv, hr]⟩

theorem rescan_rdata_returns {ε : Type} (rt : Collaborators ε) (μ : Memory ε → Nat)
    (hscan : ∀ m obj, μ (rt.scan_object m obj) ≤ μ m) (hs : Handles) (slots : List Nat)
    (hready : rdata_ready hs slots) :
    ∀ c : Cycle ε, ∃ c1, ImmixGC.rescan_rdata rt hs slots c = .ok c1 ∧
      μ c1.memory_ ≤ μ c.memory_ := by
  induction slots with
  | nil => intro c; exact ⟨c, rfl, le_refl _⟩
  | cons i rest ih =>
    have hrest : rdata_ready hs rest := fun j hj => hready j (List.mem_cons_of_mem i hj)
    intro c
    unfold ImmixGC.rescan_rdata
    simp only
    by_cases hin : (!(hs i).in_use_p) = true
    · rw [if_pos hin]
      exact ih hrest c
    · rw [if_neg hin]
      by_cases hrd : (hs i).is_rdata = true
      · rw [if_pos hrd]
        have hobj : (hs i).object ≠ null := by
          apply hready i (List.mem_cons_self i rest)
          · simpa [Handle.in_use_p] using hin
          · simpa [Handle.is_rdata] using hrd
        simp only [load, if_neg hobj]
        by_cases hm : (c.memory_.heap (hs i).object).marked_p c.memory_.mark = true
        · rw [if_pos hm]
          obtain ⟨c1, h1, hle⟩ := ih hrest
            { memory_ := rt.scan_object c.memory_ (hs i).object,
              log := c.log ++ [Event.scan_object (hs i).object] }
          exact ⟨c1, h1, le_trans hle (hscan _ _)⟩
        · rw [if_neg hm]
          exact ih hrest c
      · rw [if_neg hrd]
        exact ih hrest c

/-- The `do ... while` loop returns once the fuel exceeds the measure. -/
theorem rescan_rdata_loop_returns {ε : Type} (rt : Collaborators ε) (μ : Memory ε → Nat)
    (hscan : ∀ m obj, μ (rt.scan_object m obj) ≤ μ m)
    (hdrain : ∀ m, (rt.process_mark_stack m).1 = true → μ (rt.process_mark_stack m).2 < μ m)
    (data : GCData) (hready : rdata_ready data.handles data.handle_slots) (fuel : Nat) :
    ∀ c : Cycle ε, μ c.memory_ < fuel →
      ∃ c5, ImmixGC.rescan_rdata_loop rt data fuel c = .ok c5 := by
  induction fuel with
  | zero => intro c h; omega
  | succ n ih =>
    intro c h
    obtain ⟨c1, h1, hle⟩ := rescan_rdata_returns rt μ hscan data.handles data.handle_slots
      hready c
    unfold ImmixGC.rescan_rdata_loop
    rw [h1]
    simp only [ImmixGC.process_mark_stack]
    by_cases hmore : (rt.process_mark_stack c1.memory_).1 = true
    · rw [if_pos hmore]
      apply ih
      have := hdrain c1.memory_ hmore
      show μ (rt.process_mark_stack c1.memory_).2 < n
      omega
    · rw [if_neg hmore]
      exact ⟨_, rfl⟩

/-! ### The passes of `collect_scan` and `collect_finish`, slot by slot -/

/-- `collect_finish` is `collect_scan`, a drain, the pass over the swapped
marked set, the `do ... while` loop and the tail from `clean_weakrefs()` on, in
this order, each starting where the one before ended. -/
theorem collect_finish_stages {ε : Type} (rt : Collaborators ε) (fuel : Nat)
    (data data1 : GCData) (c c1 : Cycle ε)
    (h : ImmixGC.collect_finish rt fuel data c = .ok (data1, c1)) :
    ∃ ca set1 cd c5,
      ImmixGC.collect_scan rt data c = .ok (data1, ca) ∧
      ImmixGC.scan_marked_set rt
        (rt.swap_marked_set (rt.process_mark_stack ca.memory_).2).1
        { memory_ := (rt.swap_marked_set (rt.process_mark_stack ca.memory_).2).2,
          log := ca.log ++ [Event.process_mark_stack] ++ [Event.swap_marked_set] } =
        .ok (set1, cd) ∧
      ImmixGC.rescan_rdata_loop rt data1 fuel cd = .ok c5 ∧
      c1 = ImmixGC.finish_tail rt data1 c5 := by
  unfold ImmixGC.collect_finish at h
  cases hscan : ImmixGC.collect_scan rt data c with
  | error e => rw [hscan] at h; cases h
  | ok p =>
    obtain ⟨d1, ca⟩ := p
    rw [hscan] at h
    simp only at h
    cases hset : ImmixGC.scan_marked_set rt
        (rt.swap_marked_set (ImmixGC.process_mark_stack rt ca).2.memory_).1
        { memory_ := (rt.swap_marked_set (ImmixGC.process_mark_stack rt ca).2.memory_).2,
          log := (ImmixGC.process_mark_stack rt ca).2.log ++ [Event.swap_marked_set] } with
    | error e => rw [hset] at h; cases h
    | ok q =>
      obtain ⟨set1, cd⟩ := q
      rw [hset] at h
      simp only at h
      cases hloop : ImmixGC.rescan_rdata_loop rt d1 fuel cd with
      | error e => rw [hloop] at h; cases h
      | ok c5 =>
        rw [hloop] at h
        simp only [Except.ok.injEq, Prod.mk.injEq] at h
        obtain ⟨hd, hc⟩ := h
        subst hd
        exact ⟨ca, set1, cd, c5, rfl, hset, hloop, hc.symm⟩

/-- The `for` loop of the native-data rescan traces again, in table order, the
object of every in-use native-data handle whose object is marked. -/
theorem rescan_rdata_memory {ε : Type} (rt : Collaborators ε) (hs : Handles)
    (slots : List Nat) :
    ∀ c c1 : Cycle ε, ImmixGC.rescan_rdata rt hs slots c = .ok c1 →
      c1.memory_ = slots.foldl (rescan_step rt hs) c.memory_ := by
  induction slots with
  | nil =>
    intro c c1 h
    simp only [ImmixGC.rescan_rdata, Except.ok.injEq] at h
    rw [← h]
    rfl
  | cons i rest ih =>
    intro c c1 h
    unfold ImmixGC.rescan_rdata at h
    simp only at h
    rw [List.foldl_cons]
    by_cases hin : (!(hs i).in_use_p) = true
    · rw [if_pos hin] at h
      have hstep : rescan_step rt hs c.memory_ i = c.memory_ := by
        have h0 : (hs i).in_use = false := by simpa [Handle.in_use_p] using hin
        simp [rescan_step, h0]
      rw [hstep]
      exact ih c c1 h
    · rw [if_neg hin] at h
      have hin' : (hs i).in_use = true := by simpa [Handle.in_use_p] using hin
      by_cases hrd : (hs i).is_rdata = true
      · rw [if_pos hrd] at h
        have hrd' : (hs i).rdata = true := by simpa [Handle.is_rdata] using hrd
        cases hl : load c.memory_.heap (hs i).object with
        | error e => rw [hl] at h; cases h
        | ok obj =>
          rw [hl] at h
          simp only at h
          have hobj : c.memory_.heap (hs i).object_ = obj := by
            unfold load at hl
            by_cases h0 : (hs i).object = null
            · rw [if_pos h0] at hl; cases hl
            · rw [if_neg h0] at hl
              simpa [Handle.object] using hl
          by_cases hm : obj.marked_p c.memory_.mark = true
          · rw [if_pos hm] at h
            have hstep : rescan_step rt hs c.memory_ i =
                rt.scan_object c.memory_ (hs i).object_ := by
              have h0 : (c.memory_.heap (hs i).object_).Marked = c.memory_.mark := by
                rw [hobj]; simpa [Object.marked_p] using hm
              simp [rescan_step, hin', hrd', h0]
            rw [hstep]
            exact ih _ c1 h
          · rw [if_neg hm] at h
            have hstep : rescan_step rt hs c.memory_ i = c.memory_ := by
              have h0 : ¬ (c.memory_.heap (hs i).object_).Marked = c.memory_.mark := by
                rw [hobj]; simpa [Object.marked_p] using hm
              simp [rescan_step, h0]
            rw [hstep]
            exact ih c c1 h
      · rw [if_neg hrd] at h
        have hstep : rescan_step rt hs c.memory_ i = c.memory_ := by
          have h0 : (hs i).rdata = false := by simpa [Handle.is_rdata] using hrd
          simp [rescan_step, h0]
        rw [hstep]
        exact ih c c1 h

/-- When the `do ... while` loop returns, memory went through rounds of rescan
and drain up to the first drain that reported no more work. -/
theorem rescan_rdata_loop_drained {ε : Type} (rt : Collaborators ε) (data : GCData)
    (fuel : Nat) :
    ∀ c c5 : Cycle ε, ImmixGC.rescan_rdata_loop rt data fuel c = .ok c5 →
      Drained rt data.handles data.handle_slots c.memory_ c5.memory_ := by
  induction fuel with
  | zero =>
    intro c c5 h
    simp [ImmixGC.rescan_rdata_loop] at h
  | succ n ih =>
    intro c c5 h
    unfold ImmixGC.rescan_rdata_loop at h
    cases hr : ImmixGC.rescan_rdata rt data.handles data.handle_slots c with
    | error e => rw [hr] at h; cases h
    | ok c1 =>
      rw [hr] at h
      simp only at h
      have hmem := rescan_rdata_memory rt _ _ c c1 hr
      obtain ⟨_, hfst, hsnd⟩ := process_mark_stack_marks rt c1
      rcases hp : ImmixGC.process_mark_stack rt c1 with ⟨more, c2⟩
      rw [hp] at h hfst hsnd
      simp only at h hfst hsnd
      rw [hmem] at hfst hsnd
      by_cases hmore : more = true
      · rw [if_pos hmore] at h
        have hd := ih c2 c5 h
        rw [hsnd] at hd
        exact Drained.more _ _ (by rw [← hfst]; exact hmore) hd
      · rw [if_neg hmore] at h
        cases h
        rw [hsnd]
        exact Drained.last _ (by rw [← hfst]; simpa using hmore)

/-- The loop over the threads hands every thread to `clean_locked_objects`, in
order. -/
theorem clean_locked_memory {ε : Type} (rt : Collaborators ε) (threads : List Nat) :
    ∀ c : Cycle ε, (ImmixGC.clean_locked rt threads c).memory_ =
      threads.foldl rt.clean_locked_objects c.memory_ := by
  induction threads with
  | nil => intro c; rfl
  | cons t rest ih => intro c; simp [ImmixGC.clean_locked, ih]

/-- The tail of `collect_finish`: what it leaves in memory and which calls it
makes, from the memory it starts on. -/
theorem finish_tail_spec {ε : Type} (rt : Collaborators ε) (data : GCData) (c : Cycle ε)
    (m_w m_f m_l : Memory ε) (hw : m_w = rt.clean_weakrefs c.memory_)
    (hf : m_f = if rt.finalizer m_w = true then (rt.process_mark_stack (rt.gc_scan m_w)).2
      else m_w)
    (hl : m_l = data.threads.foldl rt.clean_locked_objects m_f) :
    (ImmixGC.finish_tail rt data c).memory_ = rt.unremember_objects m_l m_l.mark ∧
    (ImmixGC.finish_tail rt data c).log =
      c.log ++ [Event.clean_weakrefs] ++
        (if rt.finalizer m_w = true then
          [Event.gc_scan, Event.process_mark_stack, Event.notify_one]
         else []) ++
        data.threads.map Event.clean_locked_objects ++
        [Event.unremember_objects m_l.mark] := by
  subst hw
  subst hf
  subst hl
  by_cases hfin : rt.finalizer (rt.clean_weakrefs c.memory_) = true
  · simp [ImmixGC.finish_tail, hfin, clean_locked_log, clean_locked_memory,
      ImmixGC.process_mark_stack]
  · simp [ImmixGC.finish_tail, hfin, clean_locked_log, clean_locked_memory]

/-- C9. Weak-before-finalize ordering.  Whenever `collect_finish` returns, it
went through these stages, each on the memory the one before left.  Marking:
`collect_scan` (the root rescan), a drain, the rewrite of the swapped marked
set, and rounds of native-data rescan and drain that end at a drain reporting
no more work, which leaves `(process_mark_stack m_d).2`.  Then `clean_weakrefs`
on exactly that memory, giving `m_w`.  Then, when a finalizer is present, its
`gc_scan` on `m_w` followed by a drain, giving `m_f`.  Then
`clean_locked_objects` for every thread, giving `m_l`.  Last,
`unremember_objects` on `m_l` with the mark generation of `m_l`, which is the
memory returned.  The recorded calls are in the same order, and those before
`clean_weakrefs` are marking calls only.  And `collect_finish` does return, for
every sufficient fuel, when the engine does not relocate the null object, every
in-use native-data handle refers to an object, and each drain that reports more
work lowers a measure that rescanning does not raise. -/
theorem weakrefs_before_finalizer {ε : Type} (rt : Collaborators ε) (fuel : Nat)
    (data : GCData) (c : Cycle ε) :
    (∀ data1 c1, ImmixGC.collect_finish rt fuel data c = .ok (data1, c1) →
      ∃ (ca cd : Cycle ε) (set1 : List Address) (m_d m_w m_f m_l : Memory ε)
        (pre : List Event),
        ImmixGC.collect_scan rt data c = .ok (data1, ca) ∧
        ImmixGC.scan_marked_set rt
          (rt.swap_marked_set (rt.process_mark_stack ca.memory_).2).1
          { memory_ := (rt.swap_marked_set (rt.process_mark_stack ca.memory_).2).2,
            log := ca.log ++ [Event.process_mark_stack] ++ [Event.swap_marked_set] } =
          .ok (set1, cd) ∧
        Drained rt data1.handles data1.handle_slots cd.memory_
          (rt.process_mark_stack m_d).2 ∧
        (rt.process_mark_stack m_d).1 = false ∧
        m_w = rt.clean_weakrefs (rt.process_mark_stack m_d).2 ∧
        m_f = (if rt.finalizer m_w = true then (rt.process_mark_stack (rt.gc_scan m_w)).2
          else m_w) ∧
        m_l = data.threads.foldl rt.clean_locked_objects m_f ∧
        c1.memory_ = rt.unremember_objects m_l m_l.mark ∧
        (∀ e ∈ pre, e.marking = true) ∧
        c1.log = c.log ++ pre ++ [Event.process_mark_stack] ++ [Event.clean_weakrefs] ++
          (if rt.finalizer (rt.clean_weakrefs (rt.process_mark_stack m_d).2) = true then
            [Event.gc_scan, Event.process_mark_stack, Event.notify_one]
           else []) ++
          data.threads.map Event.clean_locked_objects ++
          [Event.unremember_objects m_l.mark]) ∧
    (∀ μ : Memory ε → Nat,
      (∀ m, (rt.gc_mark_address m null).1 = null) →
      rdata_ready data.handles data.handle_slots →
      (∀ m obj, μ (rt.scan_object m obj) ≤ μ m) →
      (∀ m, (rt.process_mark_stack m).1 = true → μ (rt.process_mark_stack m).2 < μ m) →
      ∃ n, ∀ fuel1, n ≤ fuel1 →
        ∃ data1 c1, ImmixGC.collect_finish rt fuel1 data c = .ok (data1, c1)) := by
  constructor
  · intro data1 c1 h
    obtain ⟨ca, set1, cd, c5, hscan, hset, hloop, hc1⟩ :=
      collect_finish_stages rt fuel data data1 c c1 h
    obtain ⟨ma, hthreads, _⟩ := collect_scan_marks rt data data1 c ca hscan
    have mb : ca.marks_from
        { memory_ := (rt.swap_marked_set (rt.process_mark_stack ca.memory_).2).2,
          log := ca.log ++ [Event.process_mark_stack] ++ [Event.swap_marked_set] } :=
      ⟨[Event.process_mark_stack, Event.swap_marked_set], by simp, by simp [Event.marking]⟩
    have mc := scan_marked_set_marks rt _ _ cd set1 hset
    obtain ⟨c4, md, hlast, hc5⟩ := rescan_rdata_loop_marks rt data1 fuel cd c5 hloop
    have hdr := rescan_rdata_loop_drained rt data1 fuel cd c5 hloop
    obtain ⟨pre, hpre, hmark⟩ :=
      marks_from_trans ma (marks_from_trans mb (marks_from_trans mc md))
    have hc5m : c5.memory_ = (rt.process_mark_stack c4.memory_).2 := by rw [hc5]
    have hc5l : c5.log = c4.log ++ [Event.process_mark_stack] := by rw [hc5]
    obtain ⟨htm, htl⟩ := finish_tail_spec rt data1 c5
      (rt.clean_weakrefs c5.memory_)
      (if rt.finalizer (rt.clean_weakrefs c5.memory_) = true then
        (rt.process_mark_stack (rt.gc_scan (rt.clean_weakrefs c5.memory_))).2
       else rt.clean_weakrefs c5.memory_)
      (data1.threads.foldl rt.clean_locked_objects
        (if rt.finalizer (rt.clean_weakrefs c5.memory_) = true then
          (rt.process_mark_stack (rt.gc_scan (rt.clean_weakrefs c5.memory_))).2
         else rt.clean_weakrefs c5.memory_)) rfl rfl rfl
    rw [hthreads, hc5m] at htm htl
    rw [hc5m] at hdr
    rw [hc5l, hpre] at htl
    refine ⟨ca, cd, set1, c4.memory_, _, _, _, pre, hscan, hset, hdr, hlast, rfl, rfl,
      rfl, ?_, hmark, ?_⟩
    · rw [hc1]; exact htm
    · rw [hc1]; exact htl
  · intro μ hnull hready hscan hdrain
    obtain ⟨d1, ca, hcs, hready1⟩ := collect_scan_returns rt hnull data c hready
    rcases hswap : rt.swap_marked_set (ImmixGC.process_mark_stack rt ca).2.memory_ with
      ⟨marked_set, m3⟩
    obtain ⟨set1, cd, hset⟩ := scan_marked_set_returns rt hnull marked_set
      { memory_ := m3,
        log := (ImmixGC.process_mark_stack rt ca).2.log ++ [Event.swap_marked_set] }
    refine ⟨μ cd.memory_ + 1, ?_⟩
    intro fuel1 hfuel
    obtain ⟨c5, hloop⟩ := rescan_rdata_loop_returns rt μ hscan hdrain d1 hready1 fuel1 cd
      (by omega)
    exact ⟨d1, ImmixGC.finish_tail rt d1 c5,
      by simp [ImmixGC.collect_finish, hcs, hswap, hset, hloop]⟩

/-- Witness for C9: the demo cycle, whose second drain inside the loop is the
first to report no more work, returns with two rounds of fuel and went through
the stages in the stated order; and the conditions under which `collect_finish`
returns for every sufficient fuel hold of the demo collaborators, with the
pending work as measure. -/
theorem weakrefs_before_finalizer_witness :
    (∃ data1 c1 cd m_d m_w m_f m_l,
      ImmixGC.collect_finish demo_rt 2 demo_data ⟨demo_memory, []⟩ = .ok (data1, c1) ∧
      Drained demo_rt data1.handles data1.handle_slots cd
        (demo_rt.process_mark_stack m_d).2 ∧
      (demo_rt.process_mark_stack m_d).1 = false ∧
      m_w = demo_rt.clean_weakrefs (demo_rt.process_mark_stack m_d).2 ∧
      m_f = (if demo_rt.finalizer m_w = true then
        (demo_rt.process_mark_stack (demo_rt.gc_scan m_w)).2 else m_w) ∧
      m_l = demo_data.threads.foldl demo_rt.clean_locked_objects m_f ∧
      c1.memory_ = demo_rt.unremember_objects m_l m_l.mark) ∧
    (∃ n, ∀ fuel1, n ≤ fuel1 →
      ∃ data1 c1, ImmixGC.collect_finish demo_rt fuel1 demo_data ⟨demo_memory, []⟩ =
        .ok (data1, c1)) := by
  constructor
  · have h : ∃ data1 c1, ImmixGC.collect_finish demo_rt 2 demo_data ⟨demo_memory, []⟩ =
        .ok (data1, c1) := ⟨_, _, rfl⟩
    obtain ⟨data1, c1, h⟩ := h
    obtain ⟨_, cd, _, m_d, m_w, m_f, m_l, _, _, _, hdr, hlast, hw, hf, hl, hm, _, _⟩ :=
      (weakrefs_before_finalizer demo_rt 2 demo_data ⟨demo_memory, []⟩).1 data1 c1 h
    exact ⟨data1, c1, cd.memory_, m_d, m_w, m_f, m_l, h, hdr, hlast, hw, hf, hl, hm⟩
  · refine (weakrefs_before_finalizer demo_rt 2 demo_data ⟨demo_memory, []⟩).2
      (fun m => m.ext.pending) ?_ ?_ ?_ ?_
    · intro m; rfl
    · intro i hi hin hrd
      simp only [demo_data, List.mem_cons, List.mem_singleton, List.not_mem_nil,
        or_false] at hi
      rcases hi with rfl | rfl | rfl | rfl | rfl <;> simp_all [demo_data, null]
    · intro m obj
      simp [demo_rt, demo_call]
    · intro m h
      simp only [demo_rt, demo_call, decide_eq_true_eq] at h ⊢
      omega

/-- The calls the driver made in the demo cycle, in order, as the driver
recorded them. -/
theorem demo_cycle_log :
    (match ImmixGC.collect_finish demo_rt 2 demo_data ⟨demo_memory, []⟩ with
      | .ok (_, c1) => c1.log
      | .error _ => []) =
      [Event.mark_address 32, Event.mark_address 48, Event.scan 1,
       Event.mark_address 32, Event.mark_address 112, Event.mark_address 48,
       Event.mark_address 96, Event.bad_handle 20,
       Event.process_mark_stack, Event.swap_marked_set,
       Event.mark_address 32, Event.mark_address 48,
       Event.scan_object 48, Event.process_mark_stack,
       Event.scan_object 48, Event.process_mark_stack,
       Event.clean_weakrefs,
       Event.gc_scan, Event.process_mark_stack, Event.notify_one,
       Event.clean_locked_objects 1, Event.unremember_objects 1] := by
  decide

/-- The calls the demo collaborators received in the demo cycle, in order, as
they recorded them in the memory manager: the last drain of the marking phase,
then `clean_weakrefs`, then the finalizer scan and its drain, then the cleaning
of locked objects, then the purge of the remembered set. -/
theorem demo_cycle_calls :
    (match ImmixGC.collect_finish demo_rt 2 demo_data ⟨demo_memory, []⟩ with
      | .ok (_, c1) => c1.memory_.ext.calls
      | .error _ => []) =
      ["process_mark_stack", "scan_object", "process_mark_stack",
       "scan_object", "process_mark_stack",
       "clean_weakrefs", "gc_scan", "process_mark_stack",
       "clean_locked_objects", "unremember_objects"] ∧
    ImmixGC.collect_finish demo_rt 1 demo_data ⟨demo_memory, []⟩ = .error .out_of_fuel := by
  constructor
  · decide
  · rfl

end memory
end rubinius
